import Mathlib

/-!
Verification of the job-orchestration core of `app/jobs.py` (the `JobManager`
class and its helpers).  The Python module is shallowly embedded: the manager's
mutable dictionaries become association lists threaded through pure functions,
`asyncio` side effects (queue pushes, fire-and-forget webhook send tasks,
durable-store calls) become explicit traces recorded in the state, and
exceptions become `Except` results.  Outcomes of the external durable `Store`
collaborator (which may raise a not-found error, per its contract) are passed
in as explicit parameters, since the orchestration logic only branches on
success versus raised error.
-/

namespace MdWb

/-- Association-list lookup keyed by decidable equality; models Python
`dict.get` (first binding wins, as the embedding never stores duplicates). -/
def lookupA {κ α : Type} [DecidableEq κ] (l : List (κ × α)) (k : κ) : Option α :=
  match l with
  | [] => none
  | (k', v) :: rest => if k' = k then some v else lookupA rest k

/-- Association-list update-or-insert; models Python `dict.__setitem__`. -/
def setA {κ α : Type} [DecidableEq κ] (l : List (κ × α)) (k : κ) (v : α) : List (κ × α) :=
  match l with
  | [] => [(k, v)]
  | (k', v') :: rest => if k' = k then (k, v) :: rest else (k', v') :: setA rest k v

/-- Association-list key removal; models Python `dict.pop(key, default)`. -/
def removeA {κ α : Type} [DecidableEq κ] (l : List (κ × α)) (k : κ) : List (κ × α) :=
  match l with
  | [] => []
  | (k', v') :: rest => if k' = k then removeA rest k else (k', v') :: removeA rest k

/-- Lifecycle states of a capture job (`JobState` in `app/jobs.py`). -/
inductive JobState where
  | BROWSER_STARTING
  | NAVIGATING
  | SCROLLING
  | CAPTURING
  | TILING
  | OCR_SUBMITTING
  | OCR_WAITING
  | STITCHING
  | DONE
  | FAILED
deriving DecidableEq, Repr

/-- The string value of a state (the `str`-enum's `.value`). -/
def JobState.value : JobState → String
  | .BROWSER_STARTING => "BROWSER_STARTING"
  | .NAVIGATING => "NAVIGATING"
  | .SCROLLING => "SCROLLING"
  | .CAPTURING => "CAPTURING"
  | .TILING => "TILING"
  | .OCR_SUBMITTING => "OCR_SUBMITTING"
  | .OCR_WAITING => "OCR_WAITING"
  | .STITCHING => "STITCHING"
  | .DONE => "DONE"
  | .FAILED => "FAILED"

/-- The set of recognised state names, `\x7bmember.value for member in JobState\x7d`
in `register_webhook`. -/
def validStates : List String :=
  ["BROWSER_STARTING", "NAVIGATING", "SCROLLING", "CAPTURING", "TILING",
   "OCR_SUBMITTING", "OCR_WAITING", "STITCHING", "DONE", "FAILED"]

/-- A raw event timestamp.  The code stores `datetime.now(timezone.utc).isoformat()`
strings and re-parses them with `datetime.fromisoformat`; an ISO string is
embedded as the instant it parses to (a `Nat`, monotone with real time), and
`malformed` stands for any string `fromisoformat` rejects. -/
inductive RawTs where
  | iso (t : Nat)
  | malformed
deriving DecidableEq, Repr

/-- Timestamp parsing, `JobManager._parse_timestamp`: `fromisoformat` plus assume-UTC for naive
values; returns `none` exactly for unparsable input. -/
def parseTimestamp : RawTs → Option Nat
  | .iso t => some t
  | .malformed => none

/-- Manifest payload stored in a snapshot's `manifest` key: either the
environment-only `ManifestMetadata` that `build_initial_snapshot` inserts, or
the full capture manifest (`asdict(capture_result.manifest)`) written on
success.  Contents beyond what the claims observe are abstracted. -/
inductive ManifestVal where
  | environmentOnly (environment : String)
  | captureManifest (tilesTotal : Nat) (environment : String)
deriving DecidableEq, Repr

/-- The `JobSnapshot` TypedDict.  `manifest` and `artifacts` are optional keys
(absent until written); `error` is present from the start with value `None`. -/
structure Snapshot where
  id : String
  url : String
  state : JobState
  progressDone : Nat
  progressTotal : Nat
  manifestPath : String
  manifest : Option ManifestVal := none
  artifacts : Option (List String) := none
  error : Option String := none
deriving DecidableEq, Repr

/-- The externally serialised snapshot produced by `_snapshot_payload`: a copy
of the snapshot with the state enum normalised to its string form. -/
structure Payload where
  id : String
  url : String
  state : String
  progressDone : Nat
  progressTotal : Nat
  manifestPath : String
  manifest : Option ManifestVal
  artifacts : Option (List String)
  error : Option String
deriving DecidableEq, Repr

/-- State-to-string conversion performed by `_snapshot_payload`. -/
def snapshotPayload (s : Snapshot) : Payload :=
  { id := s.id, url := s.url, state := s.state.value,
    progressDone := s.progressDone, progressTotal := s.progressTotal,
    manifestPath := s.manifestPath, manifest := s.manifest,
    artifacts := s.artifacts, error := s.error }

/-- One event-log entry built by `_record_event`. -/
structure EventEntry where
  timestamp : RawTs
  sequence : Int
  event : String
  snapshot : Payload
deriving DecidableEq, Repr

/-- An in-memory webhook registration dict: callback url, normalised trigger
state names, and the durable id acquired on successful persistence. -/
structure WebhookEntry where
  url : String
  events : List String
  id : Option Nat := none
deriving DecidableEq, Repr

/-- The event-log cap `_EVENT_HISTORY_LIMIT`. -/
def eventHistoryLimit : Nat := 500

/-- The `JobManager`'s mutable state.  Queues are unbounded, so a subscriber
queue is embedded as the list of items pushed to it (FIFO).  `dispatched`
records the fire-and-forget webhook send tasks created by
`_maybe_trigger_webhooks`, `statusUpdates` the successful
`store.update_status` calls (status string, finished-timestamp present?), and
`allocatedRuns` the successful `store.allocate_run` calls.  `settingsEnv` is
the module-global `settings` object read by `build_initial_snapshot`
(`none` when unavailable); `clock` drives the monotone UTC timestamps. -/
structure Manager where
  snapshots : List (String × Snapshot) := []
  tasks : List String := []
  subscribers : List (String × List (List Payload)) := []
  eventLogs : List (String × List EventEntry) := []
  eventSequences : List (String × Nat) := []
  eventSubscribers : List (String × List (List EventEntry)) := []
  webhooks : List (String × List WebhookEntry) := []
  pendingWebhooks : List (String × List WebhookEntry) := []
  dispatched : List (String × Payload) := []
  statusUpdates : List (String × String × Bool) := []
  allocatedRuns : List (String × String) := []
  settingsEnv : Option String := none
  clock : Nat := 0
deriving Repr

/-- A manager as constructed by `JobManager.__init__` under a given
module-global settings object. -/
def initialManager (settingsEnv : Option String) : Manager :=
  { settingsEnv := settingsEnv }

/-- Model of `build_initial_snapshot`: baseline snapshot before capture begins.  When
the active settings object exists it contributes an environment-only
`ManifestMetadata` under the `manifest` key; progress starts at 0/0, the
manifest path is empty and the error key holds `None`. -/
def buildInitialSnapshot (url : String) (jobId : String) (settingsEnv : Option String) :
    Snapshot :=
  { id := jobId, url := url, state := .BROWSER_STARTING,
    progressDone := 0, progressTotal := 0, manifestPath := "",
    manifest := settingsEnv.map ManifestVal.environmentOnly,
    artifacts := none, error := none }

/-- The per-job core of `_record_event`, acting on the job's
`(next sequence, retained log)` pair: build the entry with the current
counter, bump the counter, append, and when the log exceeds
`_EVENT_HISTORY_LIMIT` delete the oldest surplus entries
(`del log[: len(log) - _EVENT_HISTORY_LIMIT]`). -/
def recordEventCore (st : Nat × List EventEntry) (ts : RawTs) (payload : Payload) :
    Nat × List EventEntry :=
  let entry : EventEntry :=
    { timestamp := ts, sequence := (st.1 : Int), event := "snapshot", snapshot := payload }
  let log := st.2 ++ [entry]
  let log := if eventHistoryLimit < log.length then log.drop (log.length - eventHistoryLimit)
             else log
  (st.1 + 1, log)

/-- Model of `_record_event` on the whole manager: update the job's counter and log and
push a copy of the entry to every event-subscriber queue; the wall clock
advances past the entry's timestamp. -/
def recordEvent (m : Manager) (jobId : String) (payload : Payload) : Manager :=
  let st := ((lookupA m.eventSequences jobId).getD 0, (lookupA m.eventLogs jobId).getD [])
  let entry : EventEntry :=
    { timestamp := .iso m.clock, sequence := (st.1 : Int), event := "snapshot",
      snapshot := payload }
  let st' := recordEventCore st (.iso m.clock) payload
  { m with
    eventSequences := setA m.eventSequences jobId st'.1,
    eventLogs := setA m.eventLogs jobId st'.2,
    eventSubscribers :=
      setA m.eventSubscribers jobId
        (((lookupA m.eventSubscribers jobId).getD []).map (fun q => q ++ [entry])),
    clock := m.clock + 1 }

/-- Model of `_maybe_trigger_webhooks`: for every registered hook whose trigger list
contains the payload's state string, create a fire-and-forget send task with
that url and payload (recorded in the `dispatched` trace). -/
def maybeTriggerWebhooks (m : Manager) (jobId : String) (payload : Payload) : Manager :=
  let hooks := (lookupA m.webhooks jobId).getD []
  let sends := (hooks.filter (fun h => payload.state ∈ h.events)).map
    (fun h => (h.url, payload))
  { m with dispatched := m.dispatched ++ sends }

/-- Model of `_broadcast`: build the payload from the current snapshot, record the
event, push a copy of the payload to every snapshot-subscriber queue, then
trigger webhooks.  (`_snapshot_payload` raises for an unknown job; every call
site broadcasts only for stored jobs, so the missing case leaves the state
unchanged here.) -/
def broadcast (m : Manager) (jobId : String) : Manager :=
  match lookupA m.snapshots jobId with
  | none => m
  | some s =>
    let payload := snapshotPayload s
    let m := recordEvent m jobId payload
    let fanned := ((lookupA m.subscribers jobId).getD []).map (fun q => q ++ [payload])
    let m := { m with subscribers := setA m.subscribers jobId fanned }
    maybeTriggerWebhooks m jobId payload

/-- Model of `_set_state`: write the state into the stored snapshot (no-op for an
unknown job) and broadcast. -/
def setState (m : Manager) (jobId : String) (st : JobState) : Manager :=
  match lookupA m.snapshots jobId with
  | none => m
  | some s => broadcast { m with snapshots := setA m.snapshots jobId { s with state := st } } jobId

/-- Model of `_set_error`: write the error message into the stored snapshot (no-op for
an unknown job) and broadcast. -/
def setError (m : Manager) (jobId : String) (msg : Option String) : Manager :=
  match lookupA m.snapshots jobId with
  | none => m
  | some s => broadcast { m with snapshots := setA m.snapshots jobId { s with error := msg } } jobId

/-- Model of `create_job` up to the point the pipeline task is spawned: build and store
the initial snapshot, initialise the job's event log and sequence counter,
broadcast the initial snapshot, record the freshly spawned runner task's
handle, and return a copy of the initial snapshot.  `create_task` only
schedules `_run_job`; under cooperative scheduling none of the runner's steps
execute before `create_job` returns, so the runner is modelled separately by
`runJob`.  The fresh identifier drawn from `uuid4().hex` is passed in as
`jobId`. -/
def createJob (m : Manager) (jobId : String) (url : String) : Manager × Snapshot :=
  let snapshot := buildInitialSnapshot url jobId m.settingsEnv
  let m :=
    { m with snapshots := setA m.snapshots jobId snapshot,
             eventLogs := setA m.eventLogs jobId [],
             eventSequences := setA m.eventSequences jobId 0 }
  let m := broadcast m jobId
  let m := { m with tasks := m.tasks ++ [jobId] }
  (m, snapshot)

/-- Model of `get_snapshot`: `KeyError` (the embedding's `Except.error ()`) for an
unknown job, otherwise the stored snapshot's value (`snapshot.copy()`; its
shallowness is modelled separately below). -/
def getSnapshot (m : Manager) (jobId : String) : Except Unit Snapshot :=
  match lookupA m.snapshots jobId with
  | none => .error ()
  | some s => .ok s

/-- Model of `subscribe`: `KeyError` for an unknown job; otherwise a fresh queue seeded
synchronously with the current payload is appended to the job's subscriber
list and returned. -/
def subscribe (m : Manager) (jobId : String) : Except Unit (Manager × List Payload) :=
  match lookupA m.snapshots jobId with
  | none => .error ()
  | some s =>
    let q := [snapshotPayload s]
    let subs := ((lookupA m.subscribers jobId).getD []) ++ [q]
    .ok ({ m with subscribers := setA m.subscribers jobId subs }, q)

/-- Model of `_sequence_newer`: `int(event.get("sequence", -1)) > min_sequence`; the
entries this embedding builds always carry an integer sequence. -/
def sequenceNewer (e : EventEntry) (minSequence : Int) : Bool :=
  minSequence < e.sequence

/-- Model of `get_events`: `KeyError` for an unknown job; otherwise filter the retained
log. With no `since`, either the full log (as copies) or the entries newer
than `min_sequence`; with `since`, keep entries whose timestamp parses to an
instant ≥ `since` (unparsable ones excluded), additionally requiring
`sequence > min_sequence` when that filter is also given. -/
def getEvents (m : Manager) (jobId : String) (since : Option Nat) (minSequence : Option Int) :
    Except Unit (List EventEntry) :=
  match lookupA m.snapshots jobId with
  | none => .error ()
  | some _ =>
    let events := (lookupA m.eventLogs jobId).getD []
    match since with
    | none =>
      match minSequence with
      | none => .ok events
      | some n => .ok (events.filter (fun e => sequenceNewer e n))
    | some ts =>
      .ok (events.filter (fun e =>
        match parseTimestamp e.timestamp with
        | some t => decide (ts ≤ t) &&
            (match minSequence with
             | none => true
             | some n => sequenceNewer e n)
        | none => false))

/-- Errors surfaced by `register_webhook`: `KeyError` for an unknown job and
`ValueError` for an unsupported state name (carrying the offending name). -/
inductive RegError where
  | notFound
  | validation (entry : String)
deriving DecidableEq, Repr

/-- Result of `register_webhook`: the manager state on return (or at the point
the exception escapes), whether `store.register_webhook` was invoked, and the
outcome. -/
structure RegResult where
  manager : Manager
  storeCalled : Bool
  outcome : Except RegError Unit
deriving Repr

/-- The validation loop of `register_webhook`: check each supplied name
against the recognised states in order, raising `ValueError` at the first
unsupported one, otherwise returning the accumulated `normalized` list. -/
def normalizeEvents : List String → Except RegError (List String)
  | [] => .ok []
  | e :: rest =>
    if e ∈ validStates then (normalizeEvents rest).map (fun l => e :: l)
    else .error (.validation e)

/-- Model of `register_webhook`.  The durable store's response is passed in as
`storeResult`: `.ok recordId` when the run record exists and persistence
succeeds, `.error ()` when `store.register_webhook` raises its not-found
`KeyError`.  The entry dict is appended to the active in-memory list before
the store is consulted; on success the store's id is written into that dict,
on `KeyError` the same dict is additionally appended to the pending buffer. -/
def registerWebhook (m : Manager) (jobId : String) (url : String)
    (events : Option (List String)) (storeResult : Except Unit Nat) : RegResult :=
  match lookupA m.snapshots jobId with
  | none => { manager := m, storeCalled := false, outcome := .error .notFound }
  | some _ =>
    let source :=
      match events with
      | none => [JobState.DONE.value, JobState.FAILED.value]
      | some l => if l.isEmpty then [JobState.DONE.value, JobState.FAILED.value] else l
    match normalizeEvents source with
    | .error err => { manager := m, storeCalled := false, outcome := .error err }
    | .ok normalized =>
      let entry : WebhookEntry := { url := url, events := normalized, id := none }
      let base := (lookupA m.webhooks jobId).getD []
      match storeResult with
      | .ok recordId =>
        { manager :=
            { m with webhooks := setA m.webhooks jobId (base ++ [{ entry with id := some recordId }]) },
          storeCalled := true, outcome := .ok () }
      | .error _ =>
        { manager :=
            { m with webhooks := setA m.webhooks jobId (base ++ [entry]),
                     pendingWebhooks :=
                       setA m.pendingWebhooks jobId
                         (((lookupA m.pendingWebhooks jobId).getD []) ++ [entry]) },
          storeCalled := true, outcome := .ok () }

/-- Model of `_webhook_matches`: an entry matches when a non-empty url equals its url,
or when a delete id equals its durable id. -/
def webhookMatches (entry : WebhookEntry) (webhookId : Option Nat) (url : Option String) :
    Bool :=
  (match url with
   | some u => decide (u ≠ "") && decide (entry.url = u)
   | none => false) ||
  (match webhookId with
   | some i => decide (entry.id = some i)
   | none => false)

/-- Model of `_prune_webhook_entries` on one cache dict: drop matching entries for the
job, popping the key when nothing remains; returns the new dict and the count
removed. -/
def pruneWebhookEntries (source : List (String × List WebhookEntry)) (jobId : String)
    (webhookId : Option Nat) (url : Option String) :
    List (String × List WebhookEntry) × Nat :=
  match lookupA source jobId with
  | none => (source, 0)
  | some entries =>
    if entries.isEmpty then (source, 0)
    else
      let remaining := entries.filter (fun e => !(webhookMatches e webhookId url))
      let removed := entries.length - remaining.length
      if remaining.isEmpty then (removeA source jobId, removed)
      else (setA source jobId remaining, removed)

/-- Model of `_remove_cached_webhooks`: prune the active cache, then the pending cache,
returning `removed or pending_removed`. -/
def removeCachedWebhooks (m : Manager) (jobId : String) (webhookId : Option Nat)
    (url : Option String) : Manager × Nat :=
  let pw := pruneWebhookEntries m.webhooks jobId webhookId url
  let pp := pruneWebhookEntries m.pendingWebhooks jobId webhookId url
  ({ m with webhooks := pw.1, pendingWebhooks := pp.1 },
   if pw.2 ≠ 0 then pw.2 else pp.2)

/-- Model of `delete_webhook`.  `storeResult` is the durable layer's response to
`store.delete_webhooks`: `.ok count` on success, `.error ()` when it raises
its not-found `KeyError` (run never allocated).  On that `KeyError` the
deletion proceeds with `deleted = 0` when the job is known in memory and
re-raises otherwise; the in-memory caches are then pruned and
`max(deleted, removed)` is returned when either is non-zero. -/
def deleteWebhook (m : Manager) (jobId : String) (webhookId : Option Nat)
    (url : Option String) (storeResult : Except Unit Nat) :
    Except Unit (Manager × Nat) :=
  let deletedOpt : Option Nat :=
    match storeResult with
    | .ok d => some d
    | .error _ => if (lookupA m.snapshots jobId).isNone then none else some 0
  match deletedOpt with
  | none => .error ()
  | some deleted =>
    let pruned := removeCachedWebhooks m jobId webhookId url
    if deleted ≠ 0 || pruned.2 ≠ 0 then .ok (pruned.1, max deleted pruned.2)
    else .ok (pruned.1, 0)

/-- What the runner collaborator (`execute_capture_job` or an injected fake)
produced: the capture manifest's tile total, the manifest payload, and the tile
artifact descriptors. -/
structure RunProduct where
  tilesTotal : Nat
  manifest : ManifestVal
  artifacts : List String
deriving DecidableEq, Repr

/-- Outcomes of the external calls `_run_job` makes, in program order.  For a
plain store call, `none` means the call returned and `some msg` that it raised
an exception whose string form is `msg`.  `runner` is the awaited
capture/OCR/stitch/persist collaborator, `fetchRun` the `store.fetch_run`
result (`some path` for a record with that manifest path, `none` for no
record).  `flushPending` concerns `_persist_pending_webhooks`, which swallows
per-entry `KeyError` but lets any other store exception escape; it is only
consulted when a pending buffer exists.  `statusFailed` is the
`update_status(FAILED)` call made inside the `except` handler. -/
structure RunOutcomes where
  allocateRun : Option String := none
  statusCapturing : Option String := none
  flushPending : Option String := none
  runner : Except String RunProduct
  fetchRun : Except String (Option String) := .ok none
  statusDone : Option String := none
  statusFailed : Option String := none

/-- The `except Exception` handler of `_run_job` followed by its `finally`
block: transition to `FAILED` (broadcasting), record the exception's string
form as the error (broadcasting again), persist the `FAILED` status with a
finish timestamp, remove the task handle, and re-raise.  Should the status
persistence itself raise, that exception escapes instead, after the `finally`
still removed the handle. -/
def runJobFail (m : Manager) (jobId : String) (exc : String) (o : RunOutcomes) :
    Manager × Except String Unit :=
  let m := setState m jobId .FAILED
  let m := setError m jobId (some exc)
  match o.statusFailed with
  | some e2 => ({ m with tasks := m.tasks.erase jobId }, .error e2)
  | none =>
    let m := { m with statusUpdates := m.statusUpdates ++ [(jobId, "FAILED", true)] }
    ({ m with tasks := m.tasks.erase jobId }, .error exc)

/-- Model of `_run_job`, statement by statement.  Note the `try` block only begins at
the in-memory `CAPTURING` transition: `allocate_run`, the `CAPTURING` status
persistence and the pending-webhook flush run before it, so an exception from
any of those propagates without the `except` handler or the `finally` block
(which pops the task handle) running.  (The durable ids the flush writes into
the flushed entries are not modelled; no property below observes them.) -/
def runJob (m : Manager) (jobId : String) (url : String) (o : RunOutcomes) :
    Manager × Except String Unit :=
  match o.allocateRun with
  | some e => (m, .error e)
  | none =>
  let m := { m with allocatedRuns := m.allocatedRuns ++ [(jobId, url)] }
  match o.statusCapturing with
  | some e => (m, .error e)
  | none =>
  let m := { m with statusUpdates := m.statusUpdates ++ [(jobId, "CAPTURING", false)] }
  let pending := (lookupA m.pendingWebhooks jobId).getD []
  let m := { m with pendingWebhooks := removeA m.pendingWebhooks jobId }
  match (if pending.isEmpty then none else o.flushPending) with
  | some e => (m, .error e)
  | none =>
  let m := setState m jobId .CAPTURING
  match o.runner with
  | .error e => runJobFail m jobId e o
  | .ok product =>
  match o.fetchRun with
  | .error e => runJobFail m jobId e o
  | .ok record =>
  let manifestPath := record.getD ""
  match lookupA m.snapshots jobId with
  | none => runJobFail m jobId "job snapshot missing" o
  | some s =>
  let s := { s with manifestPath := manifestPath,
                    progressDone := product.tilesTotal,
                    progressTotal := product.tilesTotal,
                    manifest := some product.manifest,
                    artifacts := some product.artifacts }
  let m := { m with snapshots := setA m.snapshots jobId s }
  let m := broadcast m jobId
  let m := setState m jobId .DONE
  match o.statusDone with
  | some e => runJobFail m jobId e o
  | none =>
  let m := { m with statusUpdates := m.statusUpdates ++ [(jobId, "DONE", true)] }
  ({ m with tasks := m.tasks.erase jobId }, .ok ())

/-- Iterated `_record_event` on one job's `(sequence counter, log)` pair,
starting from the freshly initialised `(0, [])` that `create_job` writes; the
k-th recorded broadcast carries timestamp `ts k` and payload `pl k`. -/
def recordIter (n : Nat) (ts : Nat → RawTs) (pl : Nat → Payload) : Nat × List EventEntry :=
  match n with
  | 0 => (0, [])
  | Nat.succ k => recordEventCore (recordIter k ts pl) (ts k) (pl k)

/-- The event-entry dict `_record_event` builds, as a function of its
timestamp, the job's sequence counter, and the payload. -/
def mkEntry (t : RawTs) (c : Nat) (p : Payload) : EventEntry :=
  { timestamp := t, sequence := (c : Int), event := "snapshot", snapshot := p }

/-!
Python-object view of snapshots, for the copy semantics of `get_snapshot`.
A `JobSnapshot` is a dict whose `progress` key holds a nested mutable dict;
`dict.copy()` (used by `create_job`, `get_snapshot` and `_snapshot_payload`)
allocates a new top-level dict carrying the same values, so the nested
`progress` reference is shared between the copy and the original.  The heap
maps references to cells; only the fields the copy claims observe are kept
(state, error, and the nested progress dict with its `done`/`total`
counters).
-/

/-- A snapshot dict's own fields: immutable values plus a reference to the
nested mutable progress dict. -/
structure PySnapDict where
  state : JobState
  error : Option String
  progressRef : Nat
deriving DecidableEq, Repr

/-- A heap of snapshot dicts and progress dicts, with a fresh-reference
counter. -/
structure PyHeap where
  snapCells : List (Nat × PySnapDict) := []
  progCells : List (Nat × (Nat × Nat)) := []
  nextRef : Nat := 0
deriving DecidableEq, Repr

/-- Allocate a new progress dict. -/
def PyHeap.allocProg (h : PyHeap) (v : Nat × Nat) : PyHeap × Nat :=
  ({ h with progCells := h.progCells ++ [(h.nextRef, v)], nextRef := h.nextRef + 1 },
   h.nextRef)

/-- Allocate a new snapshot dict. -/
def PyHeap.allocSnap (h : PyHeap) (d : PySnapDict) : PyHeap × Nat :=
  ({ h with snapCells := h.snapCells ++ [(h.nextRef, d)], nextRef := h.nextRef + 1 },
   h.nextRef)

/-- Dereference a snapshot dict. -/
def PyHeap.readSnap (h : PyHeap) (r : Nat) : Option PySnapDict :=
  lookupA h.snapCells r

/-- Dereference a progress dict. -/
def PyHeap.readProg (h : PyHeap) (r : Nat) : Option (Nat × Nat) :=
  lookupA h.progCells r

/-- The manager's `_snapshots` dict in the object view: job id to the stored
snapshot dict's reference. -/
structure PyManager where
  heap : PyHeap := {}
  snapshots : List (String × Nat) := []
deriving DecidableEq, Repr

/-- Model of `create_job` in the object view: build the initial snapshot (a fresh
progress dict and a fresh snapshot dict referring to it), store
`snapshot.copy()` — a second top-level dict sharing the progress reference —
and return `snapshot.copy()`, a third such dict.  (Manifest and the other
immutable fields are dropped here; they do not bear on copy depth.) -/
def pyCreateJob (m : PyManager) (jobId _url : String) : PyManager × Nat :=
  let ap := m.heap.allocProg (0, 0)
  let d : PySnapDict := { state := .BROWSER_STARTING, error := none, progressRef := ap.2 }
  let a0 := ap.1.allocSnap d
  let aStored := a0.1.allocSnap d
  let aReturned := aStored.1.allocSnap d
  ({ heap := aReturned.1, snapshots := setA m.snapshots jobId aStored.2 }, aReturned.2)

/-- Model of `get_snapshot` in the object view: `KeyError` for an unknown job,
otherwise `snapshot.copy()` — a freshly allocated top-level dict with the
stored dict's field values, including the shared progress reference. -/
def pyGetSnapshot (m : PyManager) (jobId : String) : Option (PyManager × Nat) :=
  match lookupA m.snapshots jobId with
  | none => none
  | some rStored =>
    match m.heap.readSnap rStored with
    | none => none
    | some d =>
      let a := m.heap.allocSnap d
      some ({ m with heap := a.1 }, a.2)

/-- A caller mutating the top level of a snapshot dict it holds:
`obj["state"] = st`. -/
def pyWriteState (m : PyManager) (r : Nat) (st : JobState) : PyManager :=
  match m.heap.readSnap r with
  | none => m
  | some d =>
    { m with heap := { m.heap with snapCells := setA m.heap.snapCells r { d with state := st } } }

/-- A caller mutating the nested progress dict of a snapshot dict it holds:
`obj["progress"]["done"] = v`. -/
def pyWriteProgressDone (m : PyManager) (r : Nat) (v : Nat) : PyManager :=
  match m.heap.readSnap r with
  | none => m
  | some d =>
    match m.heap.readProg d.progressRef with
    | none => m
    | some pv =>
      { m with heap :=
          { m.heap with progCells := setA m.heap.progCells d.progressRef (v, pv.2) } }

/-- Observe a held snapshot dict's progress counters, following its nested
reference. -/
def pyObserveProgress (m : PyManager) (r : Nat) : Option (Nat × Nat) :=
  match m.heap.readSnap r with
  | none => none
  | some d => m.heap.readProg d.progressRef

/-- The progress a fresh `get_snapshot` reader observes before any mutation:
create a job, read a snapshot, and observe its progress counters. -/
def pyObservedBefore : Option (Nat × Nat) :=
  let c := pyCreateJob {} "j" "https://example.com"
  match pyGetSnapshot c.1 "j" with
  | none => none
  | some g => pyObserveProgress g.1 g.2

/-- The progress a fresh `get_snapshot` reader observes after another caller
mutated the nested progress dict of its own returned copy: create a job, read
a snapshot, write `7` into the returned copy's `progress["done"]`, then read a
fresh snapshot and observe its progress. -/
def pyObservedAfterMutation : Option (Nat × Nat) :=
  let c := pyCreateJob {} "j" "https://example.com"
  match pyGetSnapshot c.1 "j" with
  | none => none
  | some g =>
    let m := pyWriteProgressDone g.1 g.2 7
    match pyGetSnapshot m "j" with
    | none => none
    | some g2 => pyObserveProgress g2.1 g2.2

/-!
Concrete scenarios used by counterexamples: a job created under the
configured module-global settings (the application's `app/main.py` constructs
the manager with a real `Settings` object, so `build_initial_snapshot` sees a
truthy `active_settings` and attaches the environment manifest).
-/

/-- A manager right after `create_job` returned, under configured settings. -/
def c1Start : Manager := (createJob (initialManager (some "env")) "j" "https://example.com").1

/-- The runner task for that job, with the given external-call outcomes. -/
def c1Run (o : RunOutcomes) : Manager × Except String Unit :=
  runJob c1Start "j" "https://example.com" o

/-- A failing pipeline observed end to end: a job created under configured
settings, with one snapshot subscriber and one webhook registered for
`FAILED` before the run is durably allocated (the store's
`register_webhook` raises its not-found error, so the entry also sits in the
pending buffer), whose runner collaborator raises `exc`. -/
def c2Scenario (exc : String) : Manager :=
  let m := (createJob (initialManager (some "env")) "j" "https://example.com").1
  let m := match subscribe m "j" with
           | .ok p => p.1
           | .error _ => m
  let m := (registerWebhook m "j" "https://hook.example" (some ["FAILED"]) (.error ())).manager
  (runJob m "j" "https://example.com" { runner := .error exc }).1

/-- The (state, error) view of the job's event-log payloads in `c2Scenario`. -/
def c2LogStates (exc : String) : List (String × Option String) :=
  ((lookupA (c2Scenario exc).eventLogs "j").getD []).map
    (fun en => (en.snapshot.state, en.snapshot.error))

/-- The (state, error) view of the single subscriber queue in `c2Scenario`. -/
def c2QueueStates (exc : String) : List (List (String × Option String)) :=
  ((lookupA (c2Scenario exc).subscribers "j").getD []).map
    (fun q => q.map (fun p => (p.state, p.error)))

/-- The (url, state, error) view of the webhook send tasks in `c2Scenario`. -/
def c2HookStates (exc : String) : List (String × String × Option String) :=
  (c2Scenario exc).dispatched.map (fun p => (p.1, p.2.state, p.2.error))

/-- Runner outcomes where the `update_status(CAPTURING)` persistence call —
made before the runner's `try` block — raises with message `db down`; the
runner collaborator itself is never reached. -/
def c1BadStatusOutcomes : RunOutcomes :=
  { statusCapturing := some "db down", runner := .error "unreached" }

/-- A manager where a webhook was registered for the job before durable
allocation, so the registration sits in the pending buffer awaiting the
runner's flush. -/
def c1PendingStart : Manager :=
  (registerWebhook c1Start "j" "https://hook.example" none (.error ())).manager

/-- The object-view manager after one `create_job`. -/
def c5Mgr : PyManager := (pyCreateJob {} "j" "https://example.com").1

/-- The object-view manager after a subsequent `get_snapshot` (whose returned
copy is the dict at reference 4). -/
def c5After : PyManager :=
  match pyGetSnapshot c5Mgr "j" with
  | none => c5Mgr
  | some g => g.1

/-- A fixed payload for instantiating universally quantified payload
arguments in witnesses. -/
def samplePayload : Payload :=
  { id := "j", url := "https://example.com", state := "DONE", progressDone := 1,
    progressTotal := 1, manifestPath := "", manifest := none, artifacts := none,
    error := none }

/-- A concrete event entry used to exercise `get_events`. -/
def c4Entry (seq : Int) (t : RawTs) : EventEntry :=
  { timestamp := t, sequence := seq, event := "snapshot", snapshot := samplePayload }

/-- A concrete retained log: three entries, the middle one carrying an
unparsable timestamp. -/
def c4Log : List EventEntry :=
  [c4Entry 0 (RawTs.iso 10), c4Entry 1 RawTs.malformed, c4Entry 2 (RawTs.iso 20)]

/-- A manager holding one known job `j` with the concrete log `c4Log`. -/
def c4Mgr : Manager :=
  { snapshots := [("j", buildInitialSnapshot "https://example.com" "j" none)],
    eventLogs := [("j", c4Log)] }

/-- The event-name list `register_webhook` validates: the caller's list when
it is non-empty, else the `[DONE, FAILED]` default (Python's
`events or [JobState.DONE.value, JobState.FAILED.value]`). -/
def regSource (events : Option (List String)) : List String :=
  match events with
  | none => [JobState.DONE.value, JobState.FAILED.value]
  | some l => if l.isEmpty then [JobState.DONE.value, JobState.FAILED.value] else l

/-- The state `register_webhook` leaves behind once validation has passed
with `normalized`, as a function of the store's response: on success the
appended active entry carries the durable id; on the store's not-found error
the id-less entry is appended to both the active list and the pending
buffer. -/
def regOkResult (m : Manager) (jobId url : String) (normalized : List String)
    (storeResult : Except Unit Nat) : RegResult :=
  let entry : WebhookEntry := { url := url, events := normalized, id := none }
  let base := (lookupA m.webhooks jobId).getD []
  match storeResult with
  | .ok recordId =>
    { manager :=
        { m with webhooks := setA m.webhooks jobId (base ++ [{ entry with id := some recordId }]) },
      storeCalled := true, outcome := .ok () }
  | .error _ =>
    { manager :=
        { m with
          webhooks := setA m.webhooks jobId (base ++ [entry]),
          pendingWebhooks :=
            setA m.pendingWebhooks jobId (((lookupA m.pendingWebhooks jobId).getD []) ++ [entry]) },
      storeCalled := true, outcome := .ok () }

/-- A concrete webhook registration dict triggering on `DONE`. -/
def c8Hook : WebhookEntry := { url := "https://hook.example", events := ["DONE"], id := none }

/-- A manager with one known job whose registration sits in both the active
list and the pending buffer (as after a pre-allocation `register_webhook`). -/
def c8Mgr : Manager :=
  { snapshots := [("j", buildInitialSnapshot "https://example.com" "j" none)],
    webhooks := [("j", [c8Hook])],
    pendingWebhooks := [("j", [c8Hook])] }

/-! Definitions for the payload error-discipline invariant of claim C2. -/

/-- Payload error discipline: a non-empty error key is carried only with the
`FAILED` state string. -/
def payloadOk (p : Payload) : Prop := p.error ≠ none → p.state = "FAILED"

/-- Snapshot form of the error discipline, for the stored snapshots the
payloads are built from. -/
def snapOk (s : Snapshot) : Prop := s.error ≠ none → s.state = .FAILED

/-- Error discipline over every observation channel: event-log entries,
snapshot-subscriber queues, event-subscriber queues and dispatched webhook
send tasks. -/
def channelsOk (m : Manager) : Prop :=
  (∀ k log, lookupA m.eventLogs k = some log → ∀ en ∈ log, payloadOk en.snapshot) ∧
  (∀ k qs, lookupA m.subscribers k = some qs → ∀ q ∈ qs, ∀ p ∈ q, payloadOk p) ∧
  (∀ k qs, lookupA m.eventSubscribers k = some qs → ∀ q ∈ qs, ∀ en ∈ q, payloadOk en.snapshot) ∧
  (∀ d ∈ m.dispatched, payloadOk d.2)

/-- Error discipline over all stored snapshots. -/
def snapshotsOk (m : Manager) : Prop :=
  ∀ k s, lookupA m.snapshots k = some s → snapOk s

/-- External-call outcomes for a fully successful pipeline run. -/
def c2SuccessOutcome : RunOutcomes :=
  { runner := .ok { tilesTotal := 3, manifest := .captureManifest 3 "env",
                    artifacts := ["shot.png"] } }

/-- A successful run observed end to end: a job created under configured
settings whose pipeline run succeeds in every external call. -/
def c2SuccessRun : Manager :=
  (runJob (createJob (initialManager (some "env")) "j" "https://example.com").1
    "j" "https://example.com" c2SuccessOutcome).1

/-- The (state, error) view of the job's event-log payloads after the
successful run. -/
def c2SuccessLogStates : List (String × Option String) :=
  ((lookupA c2SuccessRun.eventLogs "j").getD []).map
    (fun en => (en.snapshot.state, en.snapshot.error))

/-! Helper lemmas about the association-list primitives. -/

theorem lookupA_setA_self {κ α : Type} [DecidableEq κ] (l : List (κ × α)) (k : κ) (v : α) :
    lookupA (setA l k v) k = some v := by
  induction l with
  | nil => simp [setA, lookupA]
  | cons hd tl ih =>
    by_cases h : hd.1 = k
    · simp [setA, lookupA, h]
    · simp [setA, lookupA, h, ih]

theorem lookupA_setA_ne {κ α : Type} [DecidableEq κ] (l : List (κ × α)) (k k' : κ) (v : α)
    (h : k' ≠ k) : lookupA (setA l k v) k' = lookupA l k' := by
  induction l with
  | nil => simp [setA, lookupA, Ne.symm h]
  | cons hd tl ih =>
    by_cases hk : hd.1 = k
    · simp [setA, lookupA, hk, Ne.symm h]
    · simp [setA, lookupA, hk, ih]

theorem lookupA_removeA_self {κ α : Type} [DecidableEq κ] (l : List (κ × α)) (k : κ) :
    lookupA (removeA l k) k = none := by
  induction l with
  | nil => simp [removeA, lookupA]
  | cons hd tl ih =>
    by_cases h : hd.1 = k
    · simp [removeA, h, ih]
    · simp [removeA, lookupA, h, ih]

theorem lookupA_removeA_ne {κ α : Type} [DecidableEq κ] (l : List (κ × α)) (k k' : κ)
    (h : k' ≠ k) : lookupA (removeA l k) k' = lookupA l k' := by
  induction l with
  | nil => simp [removeA]
  | cons hd tl ih =>
    by_cases hk : hd.1 = k
    · rw [removeA]
      simp only [hk, if_true, ih]
      rw [lookupA]
      simp [hk, Ne.symm h]
    · rw [removeA]
      simp only [hk, if_false]
      rw [lookupA, lookupA]
      by_cases hk' : hd.1 = k'
      · simp [hk']
      · simp [hk', ih]

/-- C10: registering with an explicitly empty events list behaves identically
to omitting events, because Python's `events or [DONE, FAILED]` treats the
empty list as falsy; the stored trigger set is then the default, never an
empty set. -/
theorem jobs_C10 (m : Manager) (jobId url : String) (storeResult : Except Unit Nat) :
    registerWebhook m jobId url (some []) storeResult =
      registerWebhook m jobId url none storeResult := rfl

/-- C2 counterexample: in a concrete failing run, the job's event log, the
snapshot subscriber queue and the webhook dispatch trace all receive a payload
whose state is `FAILED` and whose error is empty — the broadcast performed by
the `FAILED` transition precedes the error assignment — contradicting the
claim that every `FAILED` payload carries a non-empty error. -/
theorem jobs_C2_counterexample :
    c2LogStates "boom" =
      [("BROWSER_STARTING", none), ("CAPTURING", none), ("FAILED", none),
       ("FAILED", some "boom")] ∧
    c2QueueStates "boom" =
      [[("BROWSER_STARTING", none), ("CAPTURING", none), ("FAILED", none),
        ("FAILED", some "boom")]] ∧
    c2HookStates "boom" =
      [("https://hook.example", "FAILED", none),
       ("https://hook.example", "FAILED", some "boom")] := by
  refine ⟨rfl, rfl, rfl⟩

/-- C1 counterexample: when the status-persistence call made for the
`CAPTURING` transition raises (here with message `db down`), the exception
propagates before the runner's `try` block begins: the job's state stays
`BROWSER_STARTING`, its error stays empty, no `FAILED` status is persisted,
and — contradicting the "in all cases" cleanup guarantee — the task handle is
still in the registry's task map. -/
theorem jobs_C1_counterexample :
    (c1Run c1BadStatusOutcomes).2 = .error "db down" ∧
    (c1Run c1BadStatusOutcomes).1.tasks = ["j"] ∧
    ((lookupA (c1Run c1BadStatusOutcomes).1.snapshots "j").map
      (fun s => (s.state, s.error))) = some (.BROWSER_STARTING, none) ∧
    (c1Run c1BadStatusOutcomes).1.statusUpdates = [] := by
  refine ⟨rfl, rfl, rfl, rfl⟩

/-- C1 amended: exceptions raised inside the runner's `try` block — the
awaited capture/OCR/stitch/persist collaborator call, the run-record fetch,
and the `DONE` status persistence — do set the job's state to `FAILED`, set
its error to the exception's string form, persist `FAILED` with a finish
timestamp, broadcast, re-raise, and the task handle is removed; the handle is
likewise removed on success.  But the `CAPTURING` status persistence and the
pending-webhook flush run after allocation and before the `try`, so their
exceptions propagate without any `FAILED` handling and leave the task handle
registered. -/
theorem jobs_C1_amended :
    (∀ exc : String,
      (lookupA (c1Run { runner := .error exc }).1.snapshots "j").map
          (fun s => (s.state, s.error)) = some (.FAILED, some exc) ∧
      (c1Run { runner := .error exc }).1.statusUpdates =
        [("j", "CAPTURING", false), ("j", "FAILED", true)] ∧
      ((lookupA (c1Run { runner := .error exc }).1.eventLogs "j").getD []).map
          (fun en => (en.snapshot.state, en.snapshot.error)) =
        [("BROWSER_STARTING", none), ("CAPTURING", none), ("FAILED", none),
         ("FAILED", some exc)] ∧
      (c1Run { runner := .error exc }).1.tasks = [] ∧
      (c1Run { runner := .error exc }).2 = .error exc) ∧
    (∀ (product : RunProduct) (exc : String),
      (lookupA (c1Run { runner := .ok product, statusDone := some exc }).1.snapshots "j").map
          (fun s => (s.state, s.error)) = some (.FAILED, some exc) ∧
      (c1Run { runner := .ok product, statusDone := some exc }).1.statusUpdates =
        [("j", "CAPTURING", false), ("j", "FAILED", true)] ∧
      (c1Run { runner := .ok product, statusDone := some exc }).1.tasks = [] ∧
      (c1Run { runner := .ok product, statusDone := some exc }).2 = .error exc) ∧
    (∀ product : RunProduct,
      (lookupA (c1Run { runner := .ok product }).1.snapshots "j").map
          (fun s => (s.state, s.error)) = some (.DONE, none) ∧
      (c1Run { runner := .ok product }).1.tasks = [] ∧
      (c1Run { runner := .ok product }).2 = .ok ()) ∧
    (∀ exc : String,
      (c1Run { statusCapturing := some exc, runner := .error "unreached" }).2 = .error exc ∧
      (c1Run { statusCapturing := some exc, runner := .error "unreached" }).1.tasks = ["j"] ∧
      (lookupA
          (c1Run { statusCapturing := some exc, runner := .error "unreached" }).1.snapshots
          "j").map (fun s => (s.state, s.error)) = some (.BROWSER_STARTING, none)) ∧
    (∀ exc : String,
      (runJob c1PendingStart "j" "https://example.com"
          { flushPending := some exc, runner := .error "unreached" }).2 = .error exc ∧
      (runJob c1PendingStart "j" "https://example.com"
          { flushPending := some exc, runner := .error "unreached" }).1.tasks = ["j"] ∧
      (lookupA (runJob c1PendingStart "j" "https://example.com"
          { flushPending := some exc, runner := .error "unreached" }).1.snapshots "j").map
        (fun s => (s.state, s.error)) = some (.BROWSER_STARTING, none)) := by
  refine ⟨fun exc => ⟨rfl, rfl, rfl, rfl, rfl⟩,
          fun product exc => ⟨rfl, rfl, rfl, rfl⟩,
          fun product => ⟨rfl, rfl, rfl⟩,
          fun exc => ⟨rfl, rfl, rfl⟩,
          fun exc => ⟨rfl, rfl, rfl⟩⟩

/-- Characterisation of `create_job`: the returned snapshot is the initial
one, and the new manager state differs only by the stored snapshot, the
initialised event log and sequence counter (already advanced by the initial
broadcast), the fan-out of that broadcast, and the recorded task handle. -/
theorem createJob_eq (m : Manager) (jobId url : String) :
    createJob m jobId url =
      (let snap := buildInitialSnapshot url jobId m.settingsEnv
       let payload := snapshotPayload snap
       let entry : EventEntry :=
         { timestamp := .iso m.clock, sequence := 0, event := "snapshot", snapshot := payload }
       ({ m with
          snapshots := setA m.snapshots jobId snap,
          eventLogs := setA (setA m.eventLogs jobId []) jobId [entry],
          eventSequences := setA (setA m.eventSequences jobId 0) jobId 1,
          eventSubscribers :=
            setA m.eventSubscribers jobId
              (((lookupA m.eventSubscribers jobId).getD []).map (fun q => q ++ [entry])),
          subscribers :=
            setA m.subscribers jobId
              (((lookupA m.subscribers jobId).getD []).map (fun q => q ++ [payload])),
          dispatched :=
            m.dispatched ++
              (((lookupA m.webhooks jobId).getD []).filter
                (fun h => payload.state ∈ h.events)).map (fun h => (h.url, payload)),
          tasks := m.tasks ++ [jobId],
          clock := m.clock + 1 }, snap)) := by
  simp only [createJob, broadcast, recordEvent, recordEventCore, maybeTriggerWebhooks,
    lookupA_setA_self, Option.getD_some, eventHistoryLimit]
  norm_num

/-- C6 counterexample: under the configured module-global settings (which
`app/main.py` shows to be a real settings object), the initial snapshot built
by `create_job` carries a manifest — the environment-only metadata — so the
claim's "no manifest" is false. -/
theorem jobs_C6_counterexample :
    ((createJob (initialManager (some "env")) "j" "https://example.com").2).manifest =
      some (.environmentOnly "env") ∧
    ((createJob (initialManager (some "env")) "j" "https://example.com").2).manifest ≠
      none := by
  exact ⟨rfl, by decide⟩

/-- C6 amended: `create_job` builds an initial snapshot in state
`BROWSER_STARTING` with progress 0/0, empty manifest path and no error, and —
when the module-global settings object is configured, as it is in the
application — a manifest holding only environment metadata (`no manifest`
only when settings are absent); it stores the snapshot, broadcasts it before
spawning the pipeline task (so the first event-log entry has sequence 0 and
the initial state, and a subscriber's seeded first item shows it), records
the task handle, returns a copy of the initial snapshot, and performs no
pipeline work (no status persisted, no run allocated).  The fresh unique
identifier drawn from `uuid4().hex` enters the model as the `jobId`
argument. -/
theorem jobs_C6_amended (m : Manager) (jobId url : String) :
    (createJob m jobId url).2 = buildInitialSnapshot url jobId m.settingsEnv ∧
    (createJob m jobId url).2.state = .BROWSER_STARTING ∧
    (createJob m jobId url).2.progressDone = 0 ∧
    (createJob m jobId url).2.progressTotal = 0 ∧
    (createJob m jobId url).2.error = none ∧
    (createJob m jobId url).2.manifestPath = "" ∧
    (createJob m jobId url).2.manifest = m.settingsEnv.map ManifestVal.environmentOnly ∧
    lookupA (createJob m jobId url).1.snapshots jobId = some ((createJob m jobId url).2) ∧
    (lookupA (createJob m jobId url).1.eventLogs jobId).map
        (List.map (fun en => (en.sequence, en.snapshot.state, en.snapshot.error))) =
      some [((0 : Int), "BROWSER_STARTING", (none : Option String))] ∧
    jobId ∈ (createJob m jobId url).1.tasks ∧
    (createJob m jobId url).1.statusUpdates = m.statusUpdates ∧
    (createJob m jobId url).1.allocatedRuns = m.allocatedRuns ∧
    (∃ m2, subscribe (createJob m jobId url).1 jobId =
      .ok (m2, [snapshotPayload ((createJob m jobId url).2)])) := by
  rw [createJob_eq]
  refine ⟨rfl, rfl, rfl, rfl, rfl, rfl, rfl, ?_, ?_, ?_, rfl, rfl, ?_⟩
  · exact lookupA_setA_self ..
  · rw [lookupA_setA_self]; rfl
  · simp
  · simp only [subscribe, lookupA_setA_self]
    exact ⟨_, rfl⟩

theorem lookupA_mem {κ α : Type} [DecidableEq κ] {l : List (κ × α)} {k : κ} {v : α}
    (h : lookupA l k = some v) : (k, v) ∈ l := by
  induction l with
  | nil => simp [lookupA] at h
  | cons hd tl ih =>
    obtain ⟨k', v'⟩ := hd
    rw [lookupA] at h
    by_cases hk : k' = k
    · simp only [hk, if_true, Option.some.injEq] at h
      subst h
      subst hk
      exact List.mem_cons_self _ _
    · simp only [hk, if_false] at h
      exact List.mem_cons_of_mem _ (ih h)

theorem lookupA_none_of_forall_ne {κ α : Type} [DecidableEq κ] {l : List (κ × α)} {k : κ}
    (h : ∀ c ∈ l, c.1 ≠ k) : lookupA l k = none := by
  induction l with
  | nil => rfl
  | cons hd tl ih =>
    obtain ⟨k', v'⟩ := hd
    rw [lookupA]
    simp only [h (k', v') (List.mem_cons_self _ _), if_false]
    exact ih (fun c hc => h c (List.mem_cons_of_mem _ hc))

theorem lookupA_append_left {κ α : Type} [DecidableEq κ] {l₁ : List (κ × α)}
    (l₂ : List (κ × α)) {k : κ} {v : α} (h : lookupA l₁ k = some v) :
    lookupA (l₁ ++ l₂) k = some v := by
  induction l₁ with
  | nil => simp [lookupA] at h
  | cons hd tl ih =>
    obtain ⟨k', v'⟩ := hd
    rw [lookupA] at h
    rw [List.cons_append, lookupA]
    by_cases hk : k' = k
    · simpa [hk] using h
    · simp only [hk, if_false] at h ⊢
      exact ih h

theorem lookupA_append_right {κ α : Type} [DecidableEq κ] {l₁ : List (κ × α)}
    (l₂ : List (κ × α)) {k : κ} (h : lookupA l₁ k = none) :
    lookupA (l₁ ++ l₂) k = lookupA l₂ k := by
  induction l₁ with
  | nil => rfl
  | cons hd tl ih =>
    obtain ⟨k', v'⟩ := hd
    rw [lookupA] at h
    rw [List.cons_append, lookupA]
    by_cases hk : k' = k
    · simp [hk] at h
    · simp only [hk, if_false] at h ⊢
      exact ih h

/-- Characterisation of a successful `get_snapshot` in the object view: the
job is known, the stored dict is live, the returned reference is the fresh
one, and the heap gained exactly one snapshot cell holding a copy of the
stored dict's values. -/
theorem pyGetSnapshot_some {m : PyManager} {jobId : String} {m' : PyManager} {r : Nat}
    (h : pyGetSnapshot m jobId = some (m', r)) :
    ∃ rStored d, lookupA m.snapshots jobId = some rStored ∧
      m.heap.readSnap rStored = some d ∧
      m' = { heap := { snapCells := m.heap.snapCells ++ [(m.heap.nextRef, d)],
                       progCells := m.heap.progCells,
                       nextRef := m.heap.nextRef + 1 },
             snapshots := m.snapshots } ∧
      r = m.heap.nextRef := by
  rw [pyGetSnapshot] at h
  split at h
  · exact Option.noConfusion h
  · rename_i rStored heq
    split at h
    · exact Option.noConfusion h
    · rename_i d heq2
      have h2 := Option.some.inj h
      refine ⟨rStored, d, heq, heq2, ?_, ?_⟩
      · exact (congrArg Prod.fst h2).symm
      · exact (congrArg Prod.snd h2).symm

/-- C5 counterexample: `get_snapshot` returns `snapshot.copy()`, a shallow
copy.  After `create_job`, a caller reads a snapshot and mutates the nested
progress dict of its own returned copy (`snap["progress"]["done"] = 7`); a
subsequent independent `get_snapshot` read then observes progress `(7, 0)`
instead of the stored `(0, 0)` — mutating the returned object does change
snapshots subsequently observed, contradicting the claim. -/
theorem jobs_C5_counterexample :
    pyObservedBefore = some (0, 0) ∧ pyObservedAfterMutation = some (7, 0) := by
  exact ⟨rfl, rfl⟩

/-- C5 amended: the snapshot returned by `get_snapshot` is an independent
TOP-LEVEL copy — it is a fresh dict object distinct from every stored one,
and rebinding its top-level fields (e.g. its state) leaves every stored
snapshot dict unchanged — but it is not a deep copy: its nested progress dict
is the very reference held by the stored snapshot, so in-place mutation of a
nested structure through the returned copy is observed by subsequent reads
through either object. -/
theorem jobs_C5_amended (m : PyManager) (jobId : String) (m' : PyManager) (r : Nat)
    (hKeys : ∀ c ∈ m.heap.snapCells, c.1 < m.heap.nextRef)
    (h : pyGetSnapshot m jobId = some (m', r)) :
    (∀ p ∈ m.snapshots, ∀ d0, m.heap.readSnap p.2 = some d0 → p.2 ≠ r) ∧
    (∀ (st : JobState) (rS : Nat), lookupA m.snapshots jobId = some rS →
      (pyWriteState m' r st).heap.readSnap rS = m.heap.readSnap rS) ∧
    (∃ rS d, lookupA m.snapshots jobId = some rS ∧ m.heap.readSnap rS = some d ∧
      m'.heap.readSnap r = some d) ∧
    (∀ (v : Nat) (rS : Nat), lookupA m.snapshots jobId = some rS →
      pyObserveProgress (pyWriteProgressDone m' r v) rS =
        pyObserveProgress (pyWriteProgressDone m' r v) r) := by
  obtain ⟨rStored, d, hl, hd, hm', hr⟩ := pyGetSnapshot_some h
  subst hm'
  subst hr
  have hd' : lookupA m.heap.snapCells rStored = some d := hd
  have hrS_mem : (rStored, d) ∈ m.heap.snapCells := lookupA_mem hd'
  have hrS_lt : rStored < m.heap.nextRef := hKeys _ hrS_mem
  have hne : rStored ≠ m.heap.nextRef := Nat.ne_of_lt hrS_lt
  have hnone : lookupA m.heap.snapCells m.heap.nextRef = none :=
    lookupA_none_of_forall_ne (fun c hc => Nat.ne_of_lt (hKeys c hc))
  have hreadr : lookupA (m.heap.snapCells ++ [(m.heap.nextRef, d)]) m.heap.nextRef = some d := by
    rw [lookupA_append_right _ hnone]
    simp [lookupA]
  have hrS' : lookupA (m.heap.snapCells ++ [(m.heap.nextRef, d)]) rStored = some d :=
    lookupA_append_left _ hd'
  refine ⟨?_, ?_, ?_, ?_⟩
  · intro p hp d0 hread
    have : p.2 < m.heap.nextRef := hKeys _ (lookupA_mem hread)
    omega
  · intro st rS hlook
    rw [hl] at hlook
    injection hlook with hlook
    subst hlook
    rw [pyWriteState]
    simp only [PyHeap.readSnap, hreadr]
    rw [lookupA_setA_ne _ _ _ _ hne, hrS']
    exact hd.symm
  · exact ⟨rStored, d, hl, hd, hreadr⟩
  · intro v rS hlook
    rw [hl] at hlook
    injection hlook with hlook
    subst hlook
    rw [pyWriteProgressDone]
    simp only [PyHeap.readSnap, hreadr]
    rcases hp : lookupA m.heap.progCells d.progressRef with _ | pv
    · simp only [PyHeap.readProg, hp]
      rw [pyObserveProgress, pyObserveProgress]
      simp [PyHeap.readSnap, hreadr, hrS']
    · simp only [PyHeap.readProg, hp]
      rw [pyObserveProgress, pyObserveProgress]
      simp [PyHeap.readSnap, hreadr, hrS']

/-- Witness for the amended C5 theorem, at the manager produced by one
concrete `create_job`: the same progress cell is observed through the stored
snapshot reference (2) and the `get_snapshot` copy (4) after a nested
mutation through the copy. -/
theorem jobs_C5_amended_witness :
    pyObserveProgress (pyWriteProgressDone c5After 4 7) 2 =
      pyObserveProgress (pyWriteProgressDone c5After 4 7) 4 :=
  (jobs_C5_amended c5Mgr "j" c5After 4 (by decide) (by decide)).2.2.2 7 2 (by decide)

/-- One `_record_event` step in closed form: bump the counter, append the
entry carrying the old counter as its sequence, and drop the oldest surplus
entry when the cap is exceeded. -/
theorem recordEventCore_spec (c : Nat) (log : List EventEntry) (t : RawTs) (p : Payload) :
    recordEventCore (c, log) t p =
      (c + 1,
       if eventHistoryLimit < log.length + 1 then
         (log ++ [mkEntry t c p]).drop (log.length + 1 - eventHistoryLimit)
       else log ++ [mkEntry t c p]) := by
  rw [recordEventCore]
  simp [mkEntry, List.length_append]

set_option maxRecDepth 4000 in
/-- After `n` recorded events, the counter reads `n` and the retained log is
exactly the most recent cap-bounded suffix of the assigned sequence numbers
`0, 1, …, n-1`, unrenumbered. -/
theorem recordIter_map_seq (ts : Nat → RawTs) (pl : Nat → Payload) (n : Nat) :
    (recordIter n ts pl).1 = n ∧
    (recordIter n ts pl).2.map EventEntry.sequence =
      ((List.range n).drop (n - eventHistoryLimit)).map (Nat.cast : Nat → Int) := by
  induction n with
  | zero => exact ⟨rfl, rfl⟩
  | succ k ih =>
    obtain ⟨ih1, ih2⟩ := ih
    have hstep : recordIter (k + 1) ts pl =
        recordEventCore ((recordIter k ts pl).1, (recordIter k ts pl).2) (ts k) (pl k) := by
      rw [Prod.mk.eta]
      rfl
    have hLval : eventHistoryLimit = 500 := rfl
    rw [hstep, ih1, recordEventCore_spec]
    refine ⟨rfl, ?_⟩
    set lg := (recordIter k ts pl).2 with hlg
    have hlen : lg.length = k - (k - eventHistoryLimit) := by
      have := congrArg List.length ih2
      simpa using this
    have hcombine : lg.map EventEntry.sequence ++ [(k : Int)] =
        ((List.range (k + 1)).drop (k - eventHistoryLimit)).map (Nat.cast : Nat → Int) := by
      rw [ih2, List.range_succ, List.drop_append_of_le_length (by simp [Nat.sub_le]),
        List.map_append]
      rfl
    split
    · rename_i hc
      rw [List.map_drop, List.map_append]
      simp only [List.map_cons, List.map_nil, mkEntry]
      rw [hcombine, ← List.map_drop, List.drop_drop]
      have harith : k - eventHistoryLimit + (lg.length + 1 - eventHistoryLimit) =
          k + 1 - eventHistoryLimit := by
        rw [hLval] at hlen hc ⊢
        omega
      rw [harith]
    · rename_i hc
      rw [List.map_append]
      simp only [List.map_cons, List.map_nil, mkEntry]
      rw [hcombine]
      have harith : k - eventHistoryLimit = k + 1 - eventHistoryLimit := by
        rw [hLval] at hlen hc ⊢
        omega
      rw [harith]

/-- C3: over any sequence of `n` recorded events for one job, sequence
numbers are assigned from 0 upward and never reused (the counter reads `n`
and the retained log's sequences are exactly the final cap-bounded suffix of
`0 … n-1`), the retained log never exceeds the cap of 500 entries, eviction
drops oldest entries first without renumbering survivors, retained sequences
are strictly increasing, and while the cap is not yet reached the first
retained entry still carries sequence 0. -/
theorem jobs_C3 (ts : Nat → RawTs) (pl : Nat → Payload) (n : Nat) :
    (recordIter n ts pl).1 = n ∧
    (recordIter n ts pl).2.map EventEntry.sequence =
      ((List.range n).drop (n - eventHistoryLimit)).map (Nat.cast : Nat → Int) ∧
    (recordIter n ts pl).2.length = min n eventHistoryLimit ∧
    (recordIter n ts pl).2.length ≤ 500 ∧
    (recordIter n ts pl).2.Pairwise (fun a b => a.sequence < b.sequence) ∧
    (1 ≤ n → n ≤ eventHistoryLimit →
      ((recordIter n ts pl).2.map EventEntry.sequence).head? = some 0) := by
  obtain ⟨h1, h2⟩ := recordIter_map_seq ts pl n
  have hLval : eventHistoryLimit = 500 := rfl
  have hlen : (recordIter n ts pl).2.length = n - (n - eventHistoryLimit) := by
    have := congrArg List.length h2
    simpa using this
  have hpair : (recordIter n ts pl).2.Pairwise (fun a b => a.sequence < b.sequence) := by
    have hrange : (List.range n).Pairwise (· < ·) := List.pairwise_lt_range n
    have hdrop : ((List.range n).drop (n - eventHistoryLimit)).Pairwise (· < ·) :=
      hrange.sublist (List.drop_sublist _ _)
    have hcast : (((List.range n).drop (n - eventHistoryLimit)).map
        (Nat.cast : Nat → Int)).Pairwise (· < ·) := by
      rw [List.pairwise_map]
      exact hdrop.imp (fun h => by exact_mod_cast h)
    rw [← h2, List.pairwise_map] at hcast
    exact hcast
  refine ⟨h1, h2, ?_, ?_, hpair, ?_⟩
  · rw [hlen, hLval]; omega
  · rw [hlen, hLval]; omega
  · intro hn1 hn2
    have hz : n - eventHistoryLimit = 0 := by rw [hLval] at hn2 ⊢; omega
    rw [h2, hz, List.drop_zero]
    obtain ⟨m, rfl⟩ : ∃ m, n = m + 1 := ⟨n - 1, by omega⟩
    rw [List.range_succ_eq_map]
    simp

/-- Witness for C3 at three recorded events. -/
theorem jobs_C3_witness :
    ((recordIter 3 (fun _ => RawTs.iso 0) (fun _ => samplePayload)).2.map
      EventEntry.sequence).head? = some 0 ∧
    (recordIter 3 (fun _ => RawTs.iso 0) (fun _ => samplePayload)).2.length ≤ 500 :=
  ⟨(jobs_C3 (fun _ => .iso 0) (fun _ => samplePayload) 3).2.2.2.2.2 (by decide) (by decide),
   (jobs_C3 (fun _ => .iso 0) (fun _ => samplePayload) 3).2.2.2.1⟩

/-- In a list sorted by a pairwise relation, every element is either the
`getLast?` element or relates to it. -/
theorem pairwise_getLast_max {α : Type} {R : α → α → Prop} :
    ∀ {l : List α} {b : α}, l.Pairwise R → l.getLast? = some b → ∀ a ∈ l, a = b ∨ R a b := by
  intro l
  induction l with
  | nil => intro b _ hb; simp at hb
  | cons x xs ih =>
    intro b hp hb a ha
    rcases List.mem_cons.mp ha with rfl | ha'
    · cases xs with
      | nil =>
        left
        simpa using hb
      | cons y ys =>
        right
        rw [List.getLast?_cons_cons] at hb
        have hbm : b ∈ y :: ys := by
          obtain ⟨hne, heq⟩ := List.mem_getLast?_eq_getLast (Option.mem_def.mpr hb)
          rw [heq]
          exact List.getLast_mem hne
        exact (List.pairwise_cons.mp hp).1 b hbm
    · cases xs with
      | nil => simp at ha'
      | cons y ys =>
        rw [List.getLast?_cons_cons] at hb
        exact ih (List.pairwise_cons.mp hp).2 hb a ha'

/-- C4: `get_events` raises for an unknown job id; for a known job it returns
the full retained log with no filters, exactly the entries with sequence
greater than `min_sequence` with only that filter, exactly the entries whose
timestamp parses to an instant at or after `since` with only that filter
(unparsable timestamps excluded), both conditions when both filters are
given; and on a strictly-increasing log (as `_record_event` produces), a
second call whose `min_sequence` is the previous result's maximum sequence
returns the empty list. -/
theorem jobs_C4 (m : Manager) (jobId : String) :
    (lookupA m.snapshots jobId = none →
      ∀ (since : Option Nat) (minSeq : Option Int),
        getEvents m jobId since minSeq = .error ()) ∧
    ((∃ s, lookupA m.snapshots jobId = some s) →
      (getEvents m jobId none none = .ok ((lookupA m.eventLogs jobId).getD []) ∧
       (∀ n : Int, getEvents m jobId none (some n) =
         .ok (((lookupA m.eventLogs jobId).getD []).filter
           (fun e => decide (n < e.sequence)))) ∧
       (∀ ts : Nat, getEvents m jobId (some ts) none =
         .ok (((lookupA m.eventLogs jobId).getD []).filter (fun e =>
           match parseTimestamp e.timestamp with
           | some t => decide (ts ≤ t)
           | none => false))) ∧
       (∀ (ts : Nat) (n : Int), getEvents m jobId (some ts) (some n) =
         .ok (((lookupA m.eventLogs jobId).getD []).filter (fun e =>
           match parseTimestamp e.timestamp with
           | some t => decide (ts ≤ t) && decide (n < e.sequence)
           | none => false))))) ∧
    (((lookupA m.eventLogs jobId).getD []).Pairwise (fun a b => a.sequence < b.sequence) →
      ∀ (n : Int) (r : List EventEntry) (last : EventEntry),
        getEvents m jobId none (some n) = .ok r →
        r.getLast? = some last →
        getEvents m jobId none (some last.sequence) = .ok []) := by
  refine ⟨?_, ?_, ?_⟩
  · intro h since minSeq
    rw [getEvents, h]
  · rintro ⟨s, hs⟩
    refine ⟨?_, ?_, ?_, ?_⟩
    · rw [getEvents, hs]
    · intro n; rw [getEvents, hs]; rfl
    · intro ts
      rw [getEvents, hs]
      simp only [Bool.and_true]
    · intro ts n; rw [getEvents, hs]; rfl
  · intro hpw n r last hr hlast
    rcases hlook : lookupA m.snapshots jobId with _ | s
    · rw [getEvents, hlook] at hr
      exact Option.noConfusion
        (congrArg (fun x => match x with | .ok _ => none | .error e => some e) hr)
    · rw [getEvents, hlook] at hr ⊢
      have hr2 : Except.ok (((lookupA m.eventLogs jobId).getD []).filter
          (fun e => sequenceNewer e n)) = (Except.ok r : Except Unit (List EventEntry)) := hr
      have hr' : ((lookupA m.eventLogs jobId).getD []).filter
          (fun e => sequenceNewer e n) = r := Except.ok.inj hr2
      have hfil : ((lookupA m.eventLogs jobId).getD []).filter
          (fun e => sequenceNewer e last.sequence) = [] := by
        rw [List.filter_eq_nil_iff]
        intro e he
        intro hdec
        have hlt : last.sequence < e.sequence := by
          simpa [sequenceNewer] using hdec
        have hnlt : n < e.sequence := by
          have hlastr : last ∈ r := by
            obtain ⟨hne, heq⟩ := List.mem_getLast?_eq_getLast (Option.mem_def.mpr hlast)
            rw [heq]
            exact List.getLast_mem hne
          have hlastf : last ∈ ((lookupA m.eventLogs jobId).getD []).filter
              (fun e => sequenceNewer e n) := hr' ▸ hlastr
          have := (List.mem_filter.mp hlastf).2
          have hnl : n < last.sequence := by simpa [sequenceNewer] using this
          omega
        have hef : e ∈ r := by
          rw [← hr']
          exact List.mem_filter.mpr ⟨he, by simpa [sequenceNewer] using hnlt⟩
        have hpr : r.Pairwise (fun a b => a.sequence < b.sequence) := by
          rw [← hr']
          exact hpw.filter _
        rcases pairwise_getLast_max hpr hlast e hef with rfl | hlt2
        · omega
        · omega
      show Except.ok (((lookupA m.eventLogs jobId).getD []).filter
          (fun e => sequenceNewer e last.sequence)) =
        (Except.ok [] : Except Unit (List EventEntry))
      rw [hfil]

/-- Witness for C4 on the concrete three-entry log (with one unparsable
timestamp) of `c4Mgr`. -/
theorem jobs_C4_witness :
    getEvents c4Mgr "missing" none none = .error () ∧
    getEvents c4Mgr "j" none none = .ok c4Log ∧
    getEvents c4Mgr "j" none (some 0) =
      .ok [c4Entry 1 RawTs.malformed, c4Entry 2 (RawTs.iso 20)] ∧
    getEvents c4Mgr "j" (some 15) none = .ok [c4Entry 2 (RawTs.iso 20)] ∧
    getEvents c4Mgr "j" (some 5) (some 0) = .ok [c4Entry 2 (RawTs.iso 20)] ∧
    getEvents c4Mgr "j" none (some (2 : Int)) = .ok [] := by
  have h2 := (jobs_C4 c4Mgr "j").2.1
    ⟨buildInitialSnapshot "https://example.com" "j" none, rfl⟩
  refine ⟨(jobs_C4 c4Mgr "missing").1 rfl none none, h2.1, h2.2.1 0, h2.2.2.1 15,
    h2.2.2.2 5 0, ?_⟩
  exact (jobs_C4 c4Mgr "j").2.2 (by decide) 0
    [c4Entry 1 RawTs.malformed, c4Entry 2 (RawTs.iso 20)] (c4Entry 2 (RawTs.iso 20)) rfl rfl

/-- The validation loop of `register_webhook` rejects at the first
unsupported name. -/
theorem normalizeEvents_error_of_bad {l : List String} (hbad : ∃ b ∈ l, b ∉ validStates) :
    ∃ b ∈ l, b ∉ validStates ∧ normalizeEvents l = .error (.validation b) := by
  induction l with
  | nil => simp at hbad
  | cons e rest ih =>
    by_cases he : e ∈ validStates
    · have hbad' : ∃ b ∈ rest, b ∉ validStates := by
        rcases hbad with ⟨b, hb, hbv⟩
        rcases List.mem_cons.mp hb with rfl | hbr
        · exact absurd he hbv
        · exact ⟨b, hbr, hbv⟩
      obtain ⟨b, hbr, hbv, heq⟩ := ih hbad'
      refine ⟨b, List.mem_cons_of_mem _ hbr, hbv, ?_⟩
      rw [normalizeEvents]
      simp only [he, if_true, heq]
      rfl
    · refine ⟨e, List.mem_cons_self _ _, he, ?_⟩
      rw [normalizeEvents]
      simp [he]

/-- C7: `register_webhook` raises not-found for an unknown job id without
touching any state; with `events` omitted the stored registration's trigger
set is exactly the `DONE`/`FAILED` default; and when any supplied name is not
a recognised job state the whole call fails with a validation error naming an
offending entry, leaving the manager unchanged and never invoking the durable
store — no partial registration, no side effects. -/
theorem jobs_C7 (m : Manager) (jobId url : String) (events : Option (List String))
    (storeResult : Except Unit Nat) :
    (lookupA m.snapshots jobId = none →
      registerWebhook m jobId url events storeResult =
        { manager := m, storeCalled := false, outcome := .error .notFound }) ∧
    (∀ s, lookupA m.snapshots jobId = some s → events = none →
      (registerWebhook m jobId url events storeResult).outcome = .ok () ∧
      ∃ en, ((lookupA (registerWebhook m jobId url events storeResult).manager.webhooks
          jobId).getD []).getLast? = some en ∧
        en.url = url ∧ en.events = [JobState.DONE.value, JobState.FAILED.value]) ∧
    (∀ s l, lookupA m.snapshots jobId = some s → events = some l →
      (∃ b ∈ l, b ∉ validStates) →
      ∃ b ∈ l, b ∉ validStates ∧
        registerWebhook m jobId url events storeResult =
          { manager := m, storeCalled := false, outcome := .error (.validation b) }) := by
  refine ⟨?_, ?_, ?_⟩
  · intro h
    rw [registerWebhook.eq_def, h]
  · intro s hs hev
    subst hev
    rcases storeResult with _ | recId
    · constructor
      · rw [registerWebhook, hs]; rfl
      · refine ⟨{ url := url, events := ["DONE", "FAILED"], id := none }, ?_, rfl, rfl⟩
        rw [registerWebhook, hs]
        show ((lookupA (setA m.webhooks jobId
            (((lookupA m.webhooks jobId).getD []) ++
              [{ url := url, events := ["DONE", "FAILED"], id := none }])) jobId).getD
          []).getLast? = _
        rw [lookupA_setA_self, Option.getD_some, List.getLast?_concat]
    · constructor
      · rw [registerWebhook, hs]; rfl
      · refine ⟨{ url := url, events := ["DONE", "FAILED"], id := some recId }, ?_, rfl, rfl⟩
        rw [registerWebhook, hs]
        show ((lookupA (setA m.webhooks jobId
            (((lookupA m.webhooks jobId).getD []) ++
              [{ url := url, events := ["DONE", "FAILED"], id := some recId }])) jobId).getD
          []).getLast? = _
        rw [lookupA_setA_self, Option.getD_some, List.getLast?_concat]
  · intro s l hs hev hbad
    subst hev
    obtain ⟨b, hbl, hbv, heq⟩ := normalizeEvents_error_of_bad hbad
    refine ⟨b, hbl, hbv, ?_⟩
    have hne : l.isEmpty = false := by
      cases l with
      | nil => simp at hbl
      | cons x xs => rfl
    rw [registerWebhook, hs]
    show (match normalizeEvents (if l.isEmpty then
        [JobState.DONE.value, JobState.FAILED.value] else l) with
      | .error err => ({ manager := m, storeCalled := false, outcome := .error err } : RegResult)
      | .ok normalized => _) = _
    rw [hne]
    simp only [Bool.false_eq_true, if_false, heq]

/-- Witness for C7: not-found on an unknown id, the default trigger set on a
known one, and a rejected call with an unrecognised state name that leaves
the manager untouched. -/
theorem jobs_C7_witness :
    registerWebhook c4Mgr "missing" "https://hook.example" none (.ok 1) =
      { manager := c4Mgr, storeCalled := false, outcome := .error .notFound } ∧
    (registerWebhook c4Mgr "j" "https://hook.example" none (.error ())).outcome = .ok () ∧
    registerWebhook c4Mgr "j" "https://hook.example" (some ["NOPE"]) (.ok 5) =
      { manager := c4Mgr, storeCalled := false, outcome := .error (.validation "NOPE") } := by
  refine ⟨(jobs_C7 c4Mgr "missing" "https://hook.example" none (.ok 1)).1 rfl,
    ((jobs_C7 c4Mgr "j" "https://hook.example" none (.error ())).2.1
      (buildInitialSnapshot "https://example.com" "j" none) rfl rfl).1, ?_⟩
  obtain ⟨b, hb, hbv, heq⟩ :=
    (jobs_C7 c4Mgr "j" "https://hook.example" (some ["NOPE"]) (.ok 5)).2.2
      (buildInitialSnapshot "https://example.com" "j" none) ["NOPE"] rfl rfl
      ⟨"NOPE", by decide, by decide⟩
  have hb2 : b = "NOPE" := by simpa using hb
  subst hb2
  exact heq

/-- Characterisation of `register_webhook` for a known job once validation
succeeds, by the store's response. -/
theorem registerWebhook_eq_ok (m : Manager) (jobId url : String) (events : Option (List String))
    (storeResult : Except Unit Nat) (s : Snapshot) (hs : lookupA m.snapshots jobId = some s)
    (normalized : List String) (hn : normalizeEvents (regSource events) = .ok normalized) :
    registerWebhook m jobId url events storeResult =
      regOkResult m jobId url normalized storeResult := by
  rw [regSource.eq_def] at hn
  rcases storeResult with _ | recId <;>
    · rw [registerWebhook.eq_def, hs, regOkResult]
      simp only [hn]

/-- Characterisation of `register_webhook` for a known job when validation
raises. -/
theorem registerWebhook_eq_error (m : Manager) (jobId url : String)
    (events : Option (List String)) (storeResult : Except Unit Nat) (s : Snapshot)
    (hs : lookupA m.snapshots jobId = some s)
    (err : RegError) (hn : normalizeEvents (regSource events) = .error err) :
    registerWebhook m jobId url events storeResult =
      { manager := m, storeCalled := false, outcome := .error err } := by
  rw [regSource.eq_def] at hn
  rw [registerWebhook.eq_def, hs]
  simp only [hn]

/-- Any registered hook whose trigger list contains the payload's state gets
a dispatch task from `_maybe_trigger_webhooks`. -/
theorem mem_dispatched_of_hook (m : Manager) (jobId : String) (p : Payload) (en : WebhookEntry)
    (hmem : en ∈ (lookupA m.webhooks jobId).getD []) (hst : p.state ∈ en.events) :
    (en.url, p) ∈ (maybeTriggerWebhooks m jobId p).dispatched := by
  rw [maybeTriggerWebhooks]
  refine List.mem_append.mpr (Or.inr ?_)
  exact List.mem_map_of_mem _ (List.mem_filter.mpr ⟨hmem, by simpa using hst⟩)

/-- C9: every accepted webhook registration is present in the active
in-memory dispatch list whatever the durable store answered, and when the
store reported the run unallocated the same id-less entry also sits in the
pending buffer; any broadcast whose state string is in the entry's trigger
set creates a dispatch task for it, so dispatch eligibility never depends on
durable persistence. -/
theorem jobs_C9 (m : Manager) (jobId hookUrl : String) (events : Option (List String))
    (storeResult : Except Unit Nat)
    (h : (registerWebhook m jobId hookUrl events storeResult).outcome = .ok ()) :
    ∃ en, en ∈ (lookupA (registerWebhook m jobId hookUrl events storeResult).manager.webhooks
        jobId).getD [] ∧
      en.url = hookUrl ∧
      (storeResult = .error () → en.id = none ∧
        en ∈ (lookupA (registerWebhook m jobId hookUrl events
          storeResult).manager.pendingWebhooks jobId).getD []) ∧
      (∀ p : Payload, p.state ∈ en.events →
        (hookUrl, p) ∈ (maybeTriggerWebhooks
          (registerWebhook m jobId hookUrl events storeResult).manager jobId p).dispatched) := by
  rcases hlook : lookupA m.snapshots jobId with _ | s
  · rw [registerWebhook.eq_def, hlook] at h
    exact absurd h (by simp)
  rcases hns : normalizeEvents (regSource events) with err | normalized
  · rw [registerWebhook_eq_error m jobId hookUrl events storeResult s hlook err hns] at h
    exact absurd h (by simp)
  rw [registerWebhook_eq_ok m jobId hookUrl events storeResult s hlook normalized hns]
  rcases storeResult with _ | recId
  · refine ⟨{ url := hookUrl, events := normalized, id := none }, ?_, rfl, ?_, ?_⟩
    · show _ ∈ (lookupA (setA m.webhooks jobId (((lookupA m.webhooks jobId).getD []) ++
        [{ url := hookUrl, events := normalized, id := none }])) jobId).getD []
      rw [lookupA_setA_self, Option.getD_some]
      simp
    · intro _
      refine ⟨rfl, ?_⟩
      show _ ∈ (lookupA (setA m.pendingWebhooks jobId
        (((lookupA m.pendingWebhooks jobId).getD []) ++
          [{ url := hookUrl, events := normalized, id := none }])) jobId).getD []
      rw [lookupA_setA_self, Option.getD_some]
      simp
    · intro p hp
      refine mem_dispatched_of_hook _ _ _ _ ?_ hp
      show _ ∈ (lookupA (setA m.webhooks jobId (((lookupA m.webhooks jobId).getD []) ++
        [{ url := hookUrl, events := normalized, id := none }])) jobId).getD []
      rw [lookupA_setA_self, Option.getD_some]
      simp
  · refine ⟨{ url := hookUrl, events := normalized, id := some recId }, ?_, rfl, ?_, ?_⟩
    · show _ ∈ (lookupA (setA m.webhooks jobId (((lookupA m.webhooks jobId).getD []) ++
        [{ url := hookUrl, events := normalized, id := some recId }])) jobId).getD []
      rw [lookupA_setA_self, Option.getD_some]
      simp
    · intro hcontra
      exact absurd hcontra (by simp)
    · intro p hp
      refine mem_dispatched_of_hook _ _ _ _ ?_ hp
      show _ ∈ (lookupA (setA m.webhooks jobId (((lookupA m.webhooks jobId).getD []) ++
        [{ url := hookUrl, events := normalized, id := some recId }])) jobId).getD []
      rw [lookupA_setA_self, Option.getD_some]
      simp

/-- Witness for C9: registering before durable allocation populates both the
active list and the pending buffer. -/
theorem jobs_C9_witness :
    (lookupA (registerWebhook c4Mgr "j" "https://hook.example" none
      (.error ())).manager.webhooks "j").getD [] ≠ [] ∧
    (lookupA (registerWebhook c4Mgr "j" "https://hook.example" none
      (.error ())).manager.pendingWebhooks "j").getD [] ≠ [] := by
  obtain ⟨en, hmem, hurl, hpend, hdisp⟩ :=
    jobs_C9 c4Mgr "j" "https://hook.example" none (.error ()) rfl
  exact ⟨List.ne_nil_of_mem hmem, List.ne_nil_of_mem (hpend rfl).2⟩

/-- Characterisation of `_prune_webhook_entries` on one cache: the job's
entries are filtered, the count removed is returned, other keys are
untouched. -/
theorem pruneWebhookEntries_spec (source : List (String × List WebhookEntry)) (jobId : String)
    (webhookId : Option Nat) (url : Option String) :
    (lookupA (pruneWebhookEntries source jobId webhookId url).1 jobId).getD [] =
      ((lookupA source jobId).getD []).filter (fun e => !(webhookMatches e webhookId url)) ∧
    (pruneWebhookEntries source jobId webhookId url).2 =
      ((lookupA source jobId).getD []).length -
        (((lookupA source jobId).getD []).filter
          (fun e => !(webhookMatches e webhookId url))).length ∧
    (∀ k, k ≠ jobId →
      lookupA (pruneWebhookEntries source jobId webhookId url).1 k = lookupA source k) := by
  rw [pruneWebhookEntries.eq_def]
  rcases hl : lookupA source jobId with _ | entries
  · exact ⟨by simp [hl], by simp [hl], fun k hk => rfl⟩
  · by_cases hemp : entries.isEmpty
    · have he : entries = [] := List.isEmpty_iff.mp hemp
      subst he
      simp only [List.isEmpty_nil, if_true]
      refine ⟨?_, ?_, ?_⟩
      · simp [hl]
      · simp [hl]
      · intro k hk
        exact trivial
    · simp only [hemp, Bool.false_eq_true, if_false]
      by_cases hrem : (entries.filter (fun e => !(webhookMatches e webhookId url))).isEmpty
      · have hre : entries.filter (fun e => !(webhookMatches e webhookId url)) = [] :=
          List.isEmpty_iff.mp hrem
        simp only [hrem, if_true]
        refine ⟨?_, ?_, ?_⟩
        · rw [lookupA_removeA_self]
          simp [hl, hre]
        · simp [hl]
        · intro k hk
          exact lookupA_removeA_ne _ _ _ hk
      · simp only [hrem, Bool.false_eq_true, if_false]
        refine ⟨?_, ?_, ?_⟩
        · rw [lookupA_setA_self]
          simp [hl]
        · simp [hl]
        · intro k hk
          exact lookupA_setA_ne _ _ _ _ hk

/-- Closed form of `delete_webhook` once the durable layer's answer yields a
deleted count (directly, or zero after its not-found error on a known
job). -/
theorem deleteWebhook_eq_ok (m : Manager) (jobId : String) (webhookId : Option Nat)
    (url : Option String) (storeResult : Except Unit Nat) (deleted : Nat)
    (h : (match storeResult with
          | .ok d => some d
          | .error _ =>
            if (lookupA m.snapshots jobId).isNone then none else some 0) = some deleted) :
    deleteWebhook m jobId webhookId url storeResult =
      (if deleted ≠ 0 ∨ (removeCachedWebhooks m jobId webhookId url).2 ≠ 0 then
        .ok ((removeCachedWebhooks m jobId webhookId url).1,
             max deleted (removeCachedWebhooks m jobId webhookId url).2)
      else .ok ((removeCachedWebhooks m jobId webhookId url).1, 0)) := by
  rw [deleteWebhook.eq_def]
  simp only [h]
  by_cases h1 : deleted ≠ 0
  · simp [h1]
  · by_cases h2 : (removeCachedWebhooks m jobId webhookId url).2 ≠ 0
    · simp [h1, h2]
    · simp [h1, h2]

/-- C8: `delete_webhook` prunes matching registrations from both in-memory
caches and reports the combined count (`max` of the durable count and the
cache count); when the durable layer reports the run unknown but the job is
known in memory the deletion proceeds against the caches alone; when the job
is entirely unknown it re-raises the not-found error; deleting an
already-removed webhook for a known job returns zero. -/
theorem jobs_C8 (m : Manager) (jobId : String) (webhookId : Option Nat) (url : Option String)
    (storeResult : Except Unit Nat) :
    (storeResult = .error () → lookupA m.snapshots jobId = none →
      deleteWebhook m jobId webhookId url storeResult = .error ()) ∧
    (∀ s, storeResult = .error () → lookupA m.snapshots jobId = some s →
      ∃ p, deleteWebhook m jobId webhookId url storeResult = .ok p ∧
        (lookupA p.1.webhooks jobId).getD [] =
          ((lookupA m.webhooks jobId).getD []).filter
            (fun e => !(webhookMatches e webhookId url)) ∧
        (lookupA p.1.pendingWebhooks jobId).getD [] =
          ((lookupA m.pendingWebhooks jobId).getD []).filter
            (fun e => !(webhookMatches e webhookId url)) ∧
        p.1.snapshots = m.snapshots ∧
        p.2 = (removeCachedWebhooks m jobId webhookId url).2) ∧
    (∀ d, storeResult = .ok d →
      ∃ p, deleteWebhook m jobId webhookId url storeResult = .ok p ∧
        (lookupA p.1.webhooks jobId).getD [] =
          ((lookupA m.webhooks jobId).getD []).filter
            (fun e => !(webhookMatches e webhookId url)) ∧
        (lookupA p.1.pendingWebhooks jobId).getD [] =
          ((lookupA m.pendingWebhooks jobId).getD []).filter
            (fun e => !(webhookMatches e webhookId url)) ∧
        p.1.snapshots = m.snapshots ∧
        p.2 = (if d ≠ 0 ∨ (removeCachedWebhooks m jobId webhookId url).2 ≠ 0 then
                 max d (removeCachedWebhooks m jobId webhookId url).2 else 0)) ∧
    (storeResult = .ok 0 →
      (∀ e ∈ (lookupA m.webhooks jobId).getD [], webhookMatches e webhookId url = false) →
      (∀ e ∈ (lookupA m.pendingWebhooks jobId).getD [],
        webhookMatches e webhookId url = false) →
      ∃ m2, deleteWebhook m jobId webhookId url storeResult = .ok (m2, 0)) := by
  obtain ⟨hw1, hw2, hw3⟩ := pruneWebhookEntries_spec m.webhooks jobId webhookId url
  obtain ⟨hp1, hp2, hp3⟩ := pruneWebhookEntries_spec m.pendingWebhooks jobId webhookId url
  have hrc1 : (removeCachedWebhooks m jobId webhookId url).1.webhooks =
      (pruneWebhookEntries m.webhooks jobId webhookId url).1 := rfl
  have hrc1p : (removeCachedWebhooks m jobId webhookId url).1.pendingWebhooks =
      (pruneWebhookEntries m.pendingWebhooks jobId webhookId url).1 := rfl
  refine ⟨?_, ?_, ?_, ?_⟩
  · intro hsr hs
    subst hsr
    rw [deleteWebhook.eq_def, hs]
    rfl
  · intro s hsr hs
    subst hsr
    refine ⟨((removeCachedWebhooks m jobId webhookId url).1,
             (removeCachedWebhooks m jobId webhookId url).2), ?_, ?_, ?_, rfl, rfl⟩
    · rw [deleteWebhook_eq_ok m jobId webhookId url _ 0 (by simp [hs])]
      by_cases hz : (removeCachedWebhooks m jobId webhookId url).2 = 0
      · simp [hz]
      · simp [hz, Nat.max_eq_right (Nat.zero_le _)]
    · rw [hrc1, hw1]
    · rw [hrc1p, hp1]
  · intro d hsr
    subst hsr
    refine ⟨((removeCachedWebhooks m jobId webhookId url).1,
             (if d ≠ 0 ∨ (removeCachedWebhooks m jobId webhookId url).2 ≠ 0 then
               max d (removeCachedWebhooks m jobId webhookId url).2 else 0)), ?_, ?_, ?_, rfl, rfl⟩
    · rw [deleteWebhook_eq_ok m jobId webhookId url _ d rfl]
      by_cases hc : d ≠ 0 ∨ (removeCachedWebhooks m jobId webhookId url).2 ≠ 0
      · simp only [hc, if_true]
      · simp only [hc, if_false]
    · rw [hrc1, hw1]
    · rw [hrc1p, hp1]
  · intro hsr hact hpend
    subst hsr
    have hfa : ((lookupA m.webhooks jobId).getD []).filter
        (fun e => !(webhookMatches e webhookId url)) = (lookupA m.webhooks jobId).getD [] := by
      apply List.filter_eq_self.mpr
      intro a ha
      simp [hact a ha]
    have hfp : ((lookupA m.pendingWebhooks jobId).getD []).filter
        (fun e => !(webhookMatches e webhookId url)) =
          (lookupA m.pendingWebhooks jobId).getD [] := by
      apply List.filter_eq_self.mpr
      intro a ha
      simp [hpend a ha]
    have hrz : (removeCachedWebhooks m jobId webhookId url).2 = 0 := by
      show (if (pruneWebhookEntries m.webhooks jobId webhookId url).2 ≠ 0 then
          (pruneWebhookEntries m.webhooks jobId webhookId url).2
        else (pruneWebhookEntries m.pendingWebhooks jobId webhookId url).2) = 0
      rw [hw2, hp2, hfa, hfp]
      simp
    refine ⟨(removeCachedWebhooks m jobId webhookId url).1, ?_⟩
    rw [deleteWebhook_eq_ok m jobId webhookId url _ 0 rfl, hrz]
    simp


/-- Witness for C8: not-found on an unknown job, count one when deleting a
registration present durably or only in the caches, and count zero when
deleting an already-removed webhook of a known job. -/
theorem jobs_C8_witness :
    deleteWebhook c8Mgr "missing" none (some "https://hook.example") (.error ()) = .error () ∧
    (deleteWebhook c8Mgr "j" none (some "https://hook.example") (.error ())).map Prod.snd =
      .ok 1 ∧
    (deleteWebhook c8Mgr "j" none (some "https://hook.example") (.ok 1)).map Prod.snd =
      .ok 1 ∧
    (deleteWebhook c8Mgr "j" none (some "https://nomatch.example") (.ok 0)).map Prod.snd =
      .ok 0 := by
  refine ⟨(jobs_C8 c8Mgr "missing" none (some "https://hook.example") (.error ())).1 rfl rfl,
    ?_, ?_, ?_⟩
  · obtain ⟨p, heq, h1, h2, h3, hp2⟩ := (jobs_C8 c8Mgr "j" none (some "https://hook.example")
      (.error ())).2.1 (buildInitialSnapshot "https://example.com" "j" none) rfl rfl
    rw [heq]
    show Except.ok p.2 = Except.ok 1
    rw [hp2]
    rfl
  · obtain ⟨p, heq, h1, h2, h3, hp2⟩ := (jobs_C8 c8Mgr "j" none (some "https://hook.example")
      (.ok 1)).2.2.1 1 rfl
    rw [heq]
    show Except.ok p.2 = Except.ok 1
    rw [hp2]
    rfl
  · obtain ⟨m2, heq⟩ := (jobs_C8 c8Mgr "j" none (some "https://nomatch.example")
      (.ok 0)).2.2.2 rfl (by decide) (by decide)
    rw [heq]
    rfl

/-! Preservation of the payload error discipline, and the amended claim C2. -/

/-- The payload built from a disciplined snapshot is disciplined. -/
theorem payloadOk_snapshotPayload {s : Snapshot} (h : snapOk s) :
    payloadOk (snapshotPayload s) := by
  intro he
  have hst : s.state = .FAILED := h he
  show s.state.value = "FAILED"
  rw [hst]
  rfl

/-- Updating one key preserves a property holding of all values, when the new
value has it. -/
theorem allVals_setA {κ α : Type} [DecidableEq κ] {l : List (κ × α)} {P : α → Prop}
    (hl : ∀ k v, lookupA l k = some v → P v) (k₀ : κ) {v₀ : α} (hv : P v₀) :
    ∀ k v, lookupA (setA l k₀ v₀) k = some v → P v := by
  intro k v h
  by_cases hk : k = k₀
  · subst hk
    rw [lookupA_setA_self] at h
    injection h with h
    subst h
    exact hv
  · rw [lookupA_setA_ne _ _ _ _ hk] at h
    exact hl _ _ h

/-- Membership in the retained log after `_record_event`: every entry is an
old one or the new one. -/
theorem recordEventCore_snd (c : Nat) (log : List EventEntry) (t : RawTs) (p : Payload) :
    (recordEventCore (c, log) t p).2 =
      (if eventHistoryLimit < log.length + 1 then
        (log ++ [mkEntry t c p]).drop (log.length + 1 - eventHistoryLimit)
       else log ++ [mkEntry t c p]) := by
  rw [recordEventCore_spec]

/-- Preservation of the channel discipline by `_record_event` for a
disciplined payload. -/
theorem channelsOk_recordEvent {m : Manager} (jobId : String) {p : Payload}
    (hc : channelsOk m) (hp : payloadOk p) : channelsOk (recordEvent m jobId p) := by
  obtain ⟨hlog, hsub, hesub, hdisp⟩ := hc
  refine ⟨?_, hsub, ?_, hdisp⟩
  · refine allVals_setA hlog jobId ?_
    intro en hen
    rw [recordEventCore_snd] at hen
    have hen' : en ∈ ((lookupA m.eventLogs jobId).getD []) ++
        [mkEntry (RawTs.iso m.clock) ((lookupA m.eventSequences jobId).getD 0) p] := by
      by_cases hlen : eventHistoryLimit < ((lookupA m.eventLogs jobId).getD []).length + 1
      · rw [if_pos hlen] at hen
        exact List.mem_of_mem_drop hen
      · rw [if_neg hlen] at hen
        exact hen
    rcases List.mem_append.mp hen' with hold | hnew
    · rcases hlookup : lookupA m.eventLogs jobId with _ | log0
      · rw [hlookup] at hold
        simp at hold
      · rw [hlookup] at hold
        exact hlog _ _ hlookup en hold
    · have he : en = mkEntry (RawTs.iso m.clock) ((lookupA m.eventSequences jobId).getD 0) p := by
        simpa using hnew
      rw [he]
      exact hp
  · refine allVals_setA hesub jobId ?_
    intro q hq en hen
    rcases List.mem_map.mp hq with ⟨q0, hq0, rfl⟩
    rcases List.mem_append.mp hen with hold | hnew
    · rcases hlookup : lookupA m.eventSubscribers jobId with _ | qs0
      · rw [hlookup] at hq0
        simp at hq0
      · rw [hlookup] at hq0
        exact hesub _ _ hlookup q0 hq0 en hold
    · have he : en = mkEntry (RawTs.iso m.clock) ((lookupA m.eventSequences jobId).getD 0) p := by
        simpa [mkEntry] using hnew
      rw [he]
      exact hp

/-- Preservation of the channel discipline by `_maybe_trigger_webhooks` for a
disciplined payload. -/
theorem channelsOk_maybeTrigger {m : Manager} {jobId : String} {p : Payload}
    (hc : channelsOk m) (hp : payloadOk p) : channelsOk (maybeTriggerWebhooks m jobId p) := by
  obtain ⟨hlog, hsub, hesub, hdisp⟩ := hc
  refine ⟨hlog, hsub, hesub, ?_⟩
  intro d hd
  rcases List.mem_append.mp hd with hold | hnew
  · exact hdisp d hold
  · rcases List.mem_map.mp hnew with ⟨hook, _, rfl⟩
    exact hp

/-- Broadcasting leaves the snapshot map unchanged. -/
theorem broadcast_snapshots (m : Manager) (jobId : String) :
    (broadcast m jobId).snapshots = m.snapshots := by
  rw [broadcast.eq_def]
  rcases lookupA m.snapshots jobId with _ | s
  · rfl
  · rfl

/-- Preservation of the channel discipline by `_broadcast` when the stored
snapshots are disciplined. -/
theorem channelsOk_broadcast {m : Manager} (jobId : String)
    (hs : snapshotsOk m) (hc : channelsOk m) : channelsOk (broadcast m jobId) := by
  rw [broadcast.eq_def]
  rcases hlook : lookupA m.snapshots jobId with _ | s
  · exact hc
  · have hp : payloadOk (snapshotPayload s) := payloadOk_snapshotPayload (hs _ _ hlook)
    have h1 := channelsOk_recordEvent jobId hc hp
    refine channelsOk_maybeTrigger ?_ hp
    obtain ⟨hlog, hsub, hesub, hdisp⟩ := h1
    refine ⟨hlog, ?_, hesub, hdisp⟩
    refine allVals_setA hsub jobId ?_
    intro q hq pp hpp
    rcases List.mem_map.mp hq with ⟨q0, hq0, rfl⟩
    rcases List.mem_append.mp hpp with hold | hnew
    · rcases hlookup : lookupA (recordEvent m jobId (snapshotPayload s)).subscribers jobId
        with _ | qs0
      · rw [hlookup] at hq0
        simp at hq0
      · rw [hlookup] at hq0
        exact hsub _ _ hlookup q0 hq0 pp hold
    · have he : pp = snapshotPayload s := by simpa using hnew
      rw [he]
      exact hp

/-- Broadcasting never touches the stored snapshots, so their discipline is
preserved. -/
theorem snapshotsOk_broadcast {m : Manager} (jobId : String)
    (hs : snapshotsOk m) : snapshotsOk (broadcast m jobId) := by
  intro k s h
  rw [broadcast_snapshots] at h
  exact hs k s h

/-- Writing a state for an unknown job is a no-op. -/
theorem setState_none {m : Manager} {jobId : String} {st : JobState}
    (h : lookupA m.snapshots jobId = none) : setState m jobId st = m := by
  rw [setState.eq_def, h]

/-- Unfolding of `_set_state` for a stored job. -/
theorem setState_some {m : Manager} {jobId : String} {st : JobState} {s : Snapshot}
    (h : lookupA m.snapshots jobId = some s) :
    setState m jobId st =
      broadcast { m with snapshots := setA m.snapshots jobId { s with state := st } } jobId := by
  rw [setState.eq_def, h]

/-- Writing an error for an unknown job is a no-op. -/
theorem setError_none {m : Manager} {jobId : String} {msg : Option String}
    (h : lookupA m.snapshots jobId = none) : setError m jobId msg = m := by
  rw [setError.eq_def, h]

/-- Unfolding of `_set_error` for a stored job. -/
theorem setError_some {m : Manager} {jobId : String} {msg : Option String} {s : Snapshot}
    (h : lookupA m.snapshots jobId = some s) :
    setError m jobId msg =
      broadcast { m with snapshots := setA m.snapshots jobId { s with error := msg } } jobId := by
  rw [setError.eq_def, h]

/-- Preservation of the discipline by `_set_state`, provided the new state is
`FAILED` or the stored snapshot carries no error. -/
theorem ok_setState {m : Manager} (jobId : String) (st : JobState)
    (hs : snapshotsOk m) (hc : channelsOk m)
    (hcond : ∀ s, lookupA m.snapshots jobId = some s → (st = .FAILED ∨ s.error = none)) :
    snapshotsOk (setState m jobId st) ∧ channelsOk (setState m jobId st) := by
  rcases hlook : lookupA m.snapshots jobId with _ | s
  · rw [setState_none hlook]
    exact ⟨hs, hc⟩
  · rw [setState_some hlook]
    have hsnapOk : snapOk { s with state := st } := by
      intro he
      rcases hcond s hlook with hF | hE
      · show st = .FAILED
        exact hF
      · exact absurd hE he
    have hs' : snapshotsOk { m with snapshots := setA m.snapshots jobId { s with state := st } } :=
      allVals_setA hs jobId hsnapOk
    exact ⟨snapshotsOk_broadcast jobId hs', channelsOk_broadcast jobId hs' hc⟩

/-- Preservation of the discipline by `_set_error`, provided the message is
empty or the stored snapshot is already `FAILED`. -/
theorem ok_setError {m : Manager} (jobId : String) (msg : Option String)
    (hs : snapshotsOk m) (hc : channelsOk m)
    (hcond : ∀ s, lookupA m.snapshots jobId = some s → (msg = none ∨ s.state = .FAILED)) :
    snapshotsOk (setError m jobId msg) ∧ channelsOk (setError m jobId msg) := by
  rcases hlook : lookupA m.snapshots jobId with _ | s
  · rw [setError_none hlook]
    exact ⟨hs, hc⟩
  · rw [setError_some hlook]
    have hsnapOk : snapOk { s with error := msg } := by
      intro he
      rcases hcond s hlook with hN | hF
      · exact absurd hN he
      · show s.state = .FAILED
        exact hF
    have hs' : snapshotsOk { m with snapshots := setA m.snapshots jobId { s with error := msg } } :=
      allVals_setA hs jobId hsnapOk
    exact ⟨snapshotsOk_broadcast jobId hs', channelsOk_broadcast jobId hs' hc⟩

/-- The snapshot stored after `_set_state` is the old one with the new
state. -/
theorem setState_lookup_self {m : Manager} {jobId : String} {st : JobState} {s : Snapshot}
    (h : lookupA m.snapshots jobId = some s) :
    lookupA (setState m jobId st).snapshots jobId = some { s with state := st } := by
  rw [setState_some h, broadcast_snapshots]
  exact lookupA_setA_self ..

/-- Preservation of the discipline by the `except` handler: the `FAILED`
transition broadcast is disciplined (its payloads carry no error yet), and
the subsequent error assignment broadcasts with state already `FAILED`. -/
theorem runJobFail_ok {m : Manager} {jobId : String} {e : String} {o : RunOutcomes}
    (hs : snapshotsOk m) (hc : channelsOk m) :
    snapshotsOk (runJobFail m jobId e o).1 ∧ channelsOk (runJobFail m jobId e o).1 := by
  have h1 := ok_setState jobId .FAILED hs hc (fun s _ => Or.inl rfl)
  have hstate : ∀ s, lookupA (setState m jobId .FAILED).snapshots jobId = some s →
      s.state = .FAILED := by
    intro s h
    rcases hlook : lookupA m.snapshots jobId with _ | s0
    · rw [setState_none hlook, hlook] at h
      exact Option.noConfusion h
    · rw [setState_lookup_self hlook] at h
      injection h with h
      rw [← h]
  have h2 := ok_setError jobId (some e) h1.1 h1.2 (fun s hh => Or.inr (hstate s hh))
  rw [runJobFail.eq_def]
  rcases o.statusFailed with _ | e2
  · exact h2
  · exact h2

/-- Preservation of the discipline by a full pipeline run under arbitrary
external-call outcomes, given that the job's stored snapshot (if any) carries
no error on entry — as holds after `create_job`.  Covers every failure point
and the success path, whose `DONE` broadcasts are disciplined because the
snapshot error stays empty. -/
theorem runJob_ok {m : Manager} {jobId url : String} {o : RunOutcomes}
    (hs : snapshotsOk m) (hc : channelsOk m)
    (herr : ∀ s, lookupA m.snapshots jobId = some s → s.error = none) :
    snapshotsOk (runJob m jobId url o).1 ∧ channelsOk (runJob m jobId url o).1 := by
  rw [runJob.eq_def]
  dsimp only
  split
  · exact ⟨hs, hc⟩
  · split
    · exact ⟨hs, hc⟩
    · split
      · exact ⟨hs, hc⟩
      · set M2 : Manager :=
          { m with allocatedRuns := m.allocatedRuns ++ [(jobId, url)],
                   statusUpdates := m.statusUpdates ++ [(jobId, "CAPTURING", false)],
                   pendingWebhooks := removeA m.pendingWebhooks jobId } with hM2
        have hsM2 : snapshotsOk M2 := hs
        have hcM2 : channelsOk M2 := hc
        have h3 := ok_setState jobId JobState.CAPTURING hsM2 hcM2
          (fun s h => Or.inr (herr s h))
        have herr3 : ∀ s, lookupA (setState M2 jobId JobState.CAPTURING).snapshots jobId =
            some s → s.error = none := by
          intro s h
          rcases hlook0 : lookupA m.snapshots jobId with _ | s0
          · have hn : lookupA M2.snapshots jobId = none := hlook0
            rw [setState_none hn, hn] at h
            exact Option.noConfusion h
          · have hsome : lookupA M2.snapshots jobId = some s0 := hlook0
            rw [setState_lookup_self hsome] at h
            injection h with h
            rw [← h]
            exact herr s0 hlook0
        split
        · exact runJobFail_ok h3.1 h3.2
        · rename_i product hproduct
          split
          · exact runJobFail_ok h3.1 h3.2
          · rename_i record hrecord
            split
            · exact runJobFail_ok h3.1 h3.2
            · rename_i s heq
              have hse : s.error = none := herr3 s heq
              have hs4 : snapshotsOk
                  { setState M2 jobId JobState.CAPTURING with
                    snapshots := setA (setState M2 jobId JobState.CAPTURING).snapshots jobId
                      { s with manifestPath := record.getD "",
                               progressDone := product.tilesTotal,
                               progressTotal := product.tilesTotal,
                               manifest := some product.manifest,
                               artifacts := some product.artifacts } } := by
                refine allVals_setA h3.1 jobId ?_
                intro hne
                exact absurd hse hne
              have hc4 : channelsOk
                  { setState M2 jobId JobState.CAPTURING with
                    snapshots := setA (setState M2 jobId JobState.CAPTURING).snapshots jobId
                      { s with manifestPath := record.getD "",
                               progressDone := product.tilesTotal,
                               progressTotal := product.tilesTotal,
                               manifest := some product.manifest,
                               artifacts := some product.artifacts } } := h3.2
              have hs5 := snapshotsOk_broadcast jobId hs4
              have hc5 := channelsOk_broadcast jobId hs4 hc4
              have hcond6 : ∀ t, lookupA (broadcast
                  { setState M2 jobId JobState.CAPTURING with
                    snapshots := setA (setState M2 jobId JobState.CAPTURING).snapshots jobId
                      { s with manifestPath := record.getD "",
                               progressDone := product.tilesTotal,
                               progressTotal := product.tilesTotal,
                               manifest := some product.manifest,
                               artifacts := some product.artifacts } } jobId).snapshots jobId =
                  some t → (JobState.DONE = .FAILED ∨ t.error = none) := by
                intro t h
                rw [broadcast_snapshots] at h
                have h2 : lookupA (setA (setState M2 jobId JobState.CAPTURING).snapshots jobId
                    { s with manifestPath := record.getD "",
                             progressDone := product.tilesTotal,
                             progressTotal := product.tilesTotal,
                             manifest := some product.manifest,
                             artifacts := some product.artifacts }) jobId = some t := h
                rw [lookupA_setA_self] at h2
                injection h2 with h2
                rw [← h2]
                exact Or.inr hse
              have h6 := ok_setState jobId JobState.DONE hs5 hc5 hcond6
              split
              · exact runJobFail_ok h6.1 h6.2
              · exact ⟨h6.1, h6.2⟩

/-- A fresh manager satisfies both invariants: every channel is empty. -/
theorem initialManager_ok (env : Option String) :
    snapshotsOk (initialManager env) ∧ channelsOk (initialManager env) := by
  refine ⟨fun k s h => Option.noConfusion h,
          fun k l h => Option.noConfusion h,
          fun k l h => Option.noConfusion h,
          fun k l h => Option.noConfusion h,
          fun d hd => absurd hd (List.not_mem_nil d)⟩

/-- Preservation of the discipline by `create_job`; the created job's stored
snapshot is the returned one and carries no error. -/
theorem createJob_ok {m : Manager} {jobId url : String}
    (hs : snapshotsOk m) (hc : channelsOk m) :
    snapshotsOk (createJob m jobId url).1 ∧ channelsOk (createJob m jobId url).1 ∧
    lookupA (createJob m jobId url).1.snapshots jobId = some (createJob m jobId url).2 ∧
    (createJob m jobId url).2.error = none := by
  rw [createJob.eq_def]
  dsimp only
  set M1 : Manager :=
    { m with snapshots := setA m.snapshots jobId (buildInitialSnapshot url jobId m.settingsEnv),
             eventLogs := setA m.eventLogs jobId [],
             eventSequences := setA m.eventSequences jobId 0 } with hM1
  have hs1 : snapshotsOk M1 := by
    refine allVals_setA hs jobId ?_
    intro hne
    exact absurd rfl hne
  have hc1 : channelsOk M1 := by
    obtain ⟨hlog, hsub, hesub, hdisp⟩ := hc
    refine ⟨?_, hsub, hesub, hdisp⟩
    refine allVals_setA hlog jobId ?_
    intro en hen
    exact absurd hen (List.not_mem_nil en)
  refine ⟨snapshotsOk_broadcast jobId hs1, channelsOk_broadcast jobId hs1 hc1, ?_, rfl⟩
  show lookupA (broadcast M1 jobId).snapshots jobId =
    some (buildInitialSnapshot url jobId m.settingsEnv)
  rw [broadcast_snapshots]
  exact lookupA_setA_self ..

/-- Preservation of the discipline by `subscribe`: the manager stays
disciplined and every payload seeded into the fresh queue is disciplined. -/
theorem subscribe_ok {m : Manager} {jobId : String} {m' : Manager} {seeded : List Payload}
    (hs : snapshotsOk m) (hc : channelsOk m) (h : subscribe m jobId = .ok (m', seeded)) :
    snapshotsOk m' ∧ channelsOk m' ∧ ∀ p ∈ seeded, payloadOk p := by
  rw [subscribe.eq_def] at h
  rcases hlook : lookupA m.snapshots jobId with _ | s
  · rw [hlook] at h
    exact Except.noConfusion h
  · rw [hlook] at h
    dsimp only at h
    injection h with h
    rw [Prod.mk.injEq] at h
    obtain ⟨h1, h2⟩ := h
    subst h1
    subst h2
    have hp : payloadOk (snapshotPayload s) := payloadOk_snapshotPayload (hs _ _ hlook)
    refine ⟨hs, ?_, ?_⟩
    · obtain ⟨hlog, hsub, hesub, hdisp⟩ := hc
      refine ⟨hlog, ?_, hesub, hdisp⟩
      refine allVals_setA hsub jobId ?_
      intro q hq p hpq
      rcases List.mem_append.mp hq with hold | hnew
      · rcases hlk : lookupA m.subscribers jobId with _ | qs0
        · rw [hlk] at hold
          simp at hold
        · rw [hlk] at hold
          exact hsub _ _ hlk q hold p hpq
      · have hq1 : q = [snapshotPayload s] := by simpa using hnew
        rw [hq1] at hpq
        have hp1 : p = snapshotPayload s := by simpa using hpq
        rw [hp1]
        exact hp
    · intro p hp2
      have hp1 : p = snapshotPayload s := by simpa using hp2
      rw [hp1]
      exact hp

/-- Preservation of the discipline by `register_webhook`: only the webhook
caches change, in every branch. -/
theorem registerWebhook_ok {m : Manager} {jobId url : String}
    {events : Option (List String)} {storeResult : Except Unit Nat}
    (hs : snapshotsOk m) (hc : channelsOk m) :
    snapshotsOk (registerWebhook m jobId url events storeResult).manager ∧
    channelsOk (registerWebhook m jobId url events storeResult).manager := by
  rw [registerWebhook.eq_def]
  dsimp only
  split
  · exact ⟨hs, hc⟩
  · split
    · exact ⟨hs, hc⟩
    · split
      · exact ⟨hs, hc⟩
      · exact ⟨hs, hc⟩

/-- C2 amended: the payload error discipline stated for every manager and
every run.  The invariant — in every observation channel (event log,
snapshot-subscriber queues, event-subscriber queues, dispatched webhook
sends) a payload carries a non-empty error only with state `FAILED`, hence no
observer ever receives a payload pairing `DONE` with a non-empty error —
holds of a fresh manager and is preserved by `create_job`, `subscribe`,
`register_webhook` and a full pipeline run under arbitrary external-call
outcomes (the fully successful run included, so its `DONE` payloads are
covered non-vacuously); but `FAILED` does not imply a non-empty error: in
every failing run the broadcast performed by the `FAILED` transition itself
precedes the error assignment, so each observer receives exactly one payload
with state `FAILED` and empty error, followed by the payload carrying the
exception's (non-empty) string form. -/
theorem jobs_C2_amended :
    (∀ p : Payload, payloadOk p → p.state = "DONE" → p.error = none) ∧
    (∀ env, snapshotsOk (initialManager env) ∧ channelsOk (initialManager env)) ∧
    (∀ m jobId url, snapshotsOk m → channelsOk m →
      snapshotsOk (createJob m jobId url).1 ∧ channelsOk (createJob m jobId url).1 ∧
      lookupA (createJob m jobId url).1.snapshots jobId = some (createJob m jobId url).2 ∧
      (createJob m jobId url).2.error = none) ∧
    (∀ m jobId m' seeded, snapshotsOk m → channelsOk m →
      subscribe m jobId = .ok (m', seeded) →
      snapshotsOk m' ∧ channelsOk m' ∧ ∀ p ∈ seeded, payloadOk p) ∧
    (∀ m jobId url events storeResult, snapshotsOk m → channelsOk m →
      snapshotsOk (registerWebhook m jobId url events storeResult).manager ∧
      channelsOk (registerWebhook m jobId url events storeResult).manager) ∧
    (∀ m jobId url o, snapshotsOk m → channelsOk m →
      (∀ s, lookupA m.snapshots jobId = some s → s.error = none) →
      snapshotsOk (runJob m jobId url o).1 ∧ channelsOk (runJob m jobId url o).1) ∧
    (∀ exc, exc ≠ "" →
      c2LogStates exc =
        [("BROWSER_STARTING", none), ("CAPTURING", none), ("FAILED", none),
         ("FAILED", some exc)] ∧
      (∀ pr ∈ c2LogStates exc, pr.2 ≠ none → pr.1 = "FAILED") ∧
      ("FAILED", (none : Option String)) ∈ c2LogStates exc ∧
      (c2LogStates exc).getLast? = some ("FAILED", some exc) ∧
      (∀ pr ∈ c2LogStates exc, pr.2 ≠ some "") ∧
      c2QueueStates exc =
        [[("BROWSER_STARTING", none), ("CAPTURING", none), ("FAILED", none),
          ("FAILED", some exc)]] ∧
      c2HookStates exc =
        [("https://hook.example", "FAILED", none),
         ("https://hook.example", "FAILED", some exc)]) := by
  refine ⟨?_, initialManager_ok, ?_, ?_, ?_, ?_, ?_⟩
  · intro p hp hd
    by_contra hne
    have hf := hp hne
    rw [hd] at hf
    exact absurd hf (by decide)
  · intro m jobId url hs hc
    exact createJob_ok hs hc
  · intro m jobId m' seeded hs hc h
    exact subscribe_ok hs hc h
  · intro m jobId url events storeResult hs hc
    exact registerWebhook_ok hs hc
  · intro m jobId url o hs hc herr
    exact runJob_ok hs hc herr
  · intro exc h
    have hL : c2LogStates exc =
        [("BROWSER_STARTING", none), ("CAPTURING", none), ("FAILED", none),
         ("FAILED", some exc)] := rfl
    refine ⟨hL, ?_, ?_, rfl, ?_, rfl, rfl⟩
    · intro pr hpr
      rw [hL] at hpr
      simp only [List.mem_cons, List.not_mem_nil, or_false] at hpr
      rcases hpr with rfl | rfl | rfl | rfl
      · intro hne
        exact absurd rfl hne
      · intro hne
        exact absurd rfl hne
      · intro _
        rfl
      · intro _
        rfl
    · rw [hL]
      simp
    · intro pr hpr
      rw [hL] at hpr
      simp only [List.mem_cons, List.not_mem_nil, or_false] at hpr
      rcases hpr with rfl | rfl | rfl | rfl
      · simp
      · simp
      · simp
      · simp [h]

/-- Witness for the amended C2 theorem: its invariant parts chained at
concrete inputs through a fully successful run — whose event log really does
contain a `DONE` payload, with empty error — and its failure-trace part
instantiated at the message `boom`. -/
theorem jobs_C2_amended_witness :
    (snapshotsOk c2SuccessRun ∧ channelsOk c2SuccessRun) ∧
    ("DONE", (none : Option String)) ∈ c2SuccessLogStates ∧
    c2LogStates "boom" =
      [("BROWSER_STARTING", none), ("CAPTURING", none), ("FAILED", none),
       ("FAILED", some "boom")] ∧
    (c2LogStates "boom").getLast? = some ("FAILED", some "boom") := by
  obtain ⟨Hbridge, Hbase, Hcreate, Hsub, Hreg, Hrun, Htrace⟩ := jobs_C2_amended
  have hbase := Hbase (some "env")
  have hcreate := Hcreate (initialManager (some "env")) "j" "https://example.com"
    hbase.1 hbase.2
  have herr : ∀ s,
      lookupA (createJob (initialManager (some "env")) "j" "https://example.com").1.snapshots
        "j" = some s → s.error = none := by
    intro s hlook2
    rw [hcreate.2.2.1] at hlook2
    injection hlook2 with hlook2
    rw [← hlook2]
    exact hcreate.2.2.2
  have hrun := Hrun (createJob (initialManager (some "env")) "j" "https://example.com").1
    "j" "https://example.com" c2SuccessOutcome hcreate.1 hcreate.2.1 herr
  have htrace := Htrace "boom" (by decide)
  exact ⟨hrun, by decide, htrace.1, htrace.2.2.2.1⟩

end MdWb
